import Mathlib

/-!
# Verification of the Tableau workbook cleanup validator

A shallow embedding of `src/claude-skill/scripts/validate_cleanup.py` and
proofs about its rule checks (C-rules, M-rules, F-rules, S-rules, exit code).

Text is modelled as `List Char` (Python `str`); the ASCII-only case maps of
`Char.toUpper` / `Char.toLower` stand in for Python's `str.upper` /
`str.lower` / `str.capitalize`.  File-system facts (does the backup exist)
and the XML parser outcome are passed in as explicit parameters.
-/

namespace TableauCleanup

/-! ## Character-level helpers -/

/-- Evaluation `(Char.ofNat n).toNat = n` for valid scalar values. -/
theorem Char.toNat_ofNat_valid (n : Nat) (h : n.isValidChar) :
    (Char.ofNat n).toNat = n := by
  rw [Char.ofNat, dif_pos h]
  simp [Char.ofNatAux, Char.toNat, UInt32.toNat]

theorem Char.toNat_inj {a b : Char} (h : a.toNat = b.toNat) : a = b := by
  apply Char.ext
  apply UInt32.ext
  simpa [Char.toNat, UInt32.toNat] using h

/-- Upper-casing twice is the same as doing it once. -/
theorem Char.toUpper_toUpper (c : Char) : c.toUpper.toUpper = c.toUpper := by
  unfold Char.toUpper
  by_cases h : c.toNat ≥ 97 ∧ c.toNat ≤ 122
  · rw [if_pos h]
    have hv : (c.toNat - 32).isValidChar := by
      left
      omega
    have ht : (Char.ofNat (c.toNat - 32)).toNat = c.toNat - 32 :=
      Char.toNat_ofNat_valid _ hv
    rw [if_neg]
    omega
  · rw [if_neg h, if_neg h]

/-- Lower-casing twice is the same as doing it once. -/
theorem Char.toLower_toLower (c : Char) : c.toLower.toLower = c.toLower := by
  unfold Char.toLower
  by_cases h : c.toNat ≥ 65 ∧ c.toNat ≤ 90
  · rw [if_pos h]
    have hv : (c.toNat + 32).isValidChar := by
      left
      have : c.toNat < 0xd800 := by omega
      omega
    have ht : (Char.ofNat (c.toNat + 32)).toNat = c.toNat + 32 :=
      Char.toNat_ofNat_valid _ hv
    rw [if_neg]
    omega
  · rw [if_neg h, if_neg h]

/-- Upper-casing undoes lower-casing. -/
theorem Char.toUpper_toLower (c : Char) : c.toLower.toUpper = c.toUpper := by
  unfold Char.toLower Char.toUpper
  by_cases h : c.toNat ≥ 65 ∧ c.toNat ≤ 90
  · rw [if_pos h]
    have hv : (c.toNat + 32).isValidChar := by
      left
      omega
    have ht : (Char.ofNat (c.toNat + 32)).toNat = c.toNat + 32 :=
      Char.toNat_ofNat_valid _ hv
    rw [if_pos (by omega), if_neg (by omega)]
    apply Char.toNat_inj
    rw [Char.toNat_ofNat_valid _ (by left; omega), ht]
    omega
  · rw [if_neg h]

theorem Char.eq_iff_toNat {a b : Char} : a = b ↔ a.toNat = b.toNat :=
  ⟨fun h => h ▸ rfl, Char.toNat_inj⟩

/-- Characterization of `Char.isWhitespace` in terms of the scalar value. -/
theorem Char.ws_iff_toNat (c : Char) :
    c.isWhitespace = true ↔
      (c.toNat = 32 ∨ c.toNat = 9 ∨ c.toNat = 13 ∨ c.toNat = 10) := by
  simp only [Char.isWhitespace, Bool.or_eq_true, decide_eq_true_eq,
    Char.eq_iff_toNat]
  have h1 : (' ' : Char).toNat = 32 := rfl
  have h2 : ('\t' : Char).toNat = 9 := rfl
  have h3 : ('\r' : Char).toNat = 13 := rfl
  have h4 : ('\n' : Char).toNat = 10 := rfl
  rw [h1, h2, h3, h4]
  tauto

/-- Upper-casing does not change whitespace-ness. -/
theorem Char.ws_toUpper (c : Char) :
    c.toUpper.isWhitespace = c.isWhitespace := by
  unfold Char.toUpper
  by_cases h : c.toNat ≥ 97 ∧ c.toNat ≤ 122
  · rw [if_pos h]
    have ht := Char.toNat_ofNat_valid (c.toNat - 32) (by left; omega)
    have h1 : (Char.ofNat (c.toNat - 32)).isWhitespace = false := by
      rw [← Bool.not_eq_true, Char.ws_iff_toNat, ht]
      omega
    have h2 : c.isWhitespace = false := by
      rw [← Bool.not_eq_true, Char.ws_iff_toNat]
      omega
    rw [h1, h2]
  · rw [if_neg h]

/-- Lower-casing does not change whitespace-ness. -/
theorem Char.ws_toLower (c : Char) :
    c.toLower.isWhitespace = c.isWhitespace := by
  unfold Char.toLower
  by_cases h : c.toNat ≥ 65 ∧ c.toNat ≤ 90
  · rw [if_pos h]
    have ht := Char.toNat_ofNat_valid (c.toNat + 32) (by left; omega)
    have h1 : (Char.ofNat (c.toNat + 32)).isWhitespace = false := by
      rw [← Bool.not_eq_true, Char.ws_iff_toNat, ht]
      omega
    have h2 : c.isWhitespace = false := by
      rw [← Bool.not_eq_true, Char.ws_iff_toNat]
      omega
    rw [h1, h2]
  · rw [if_neg h]

/-- Upper-casing never produces an underscore from a non-underscore. -/
theorem Char.toUpper_eq_underscore (c : Char) :
    c.toUpper = '_' ↔ c = '_' := by
  unfold Char.toUpper
  by_cases h : c.toNat ≥ 97 ∧ c.toNat ≤ 122
  · rw [if_pos h]
    have ht := Char.toNat_ofNat_valid (c.toNat - 32) (by left; omega)
    rw [Char.eq_iff_toNat, Char.eq_iff_toNat, ht]
    have : ('_' : Char).toNat = 95 := rfl
    omega
  · rw [if_neg h]

/-- Lower-casing never produces an underscore from a non-underscore. -/
theorem Char.toLower_eq_underscore (c : Char) :
    c.toLower = '_' ↔ c = '_' := by
  unfold Char.toLower
  by_cases h : c.toNat ≥ 65 ∧ c.toNat ≤ 90
  · rw [if_pos h]
    have ht := Char.toNat_ofNat_valid (c.toNat + 32) (by left; omega)
    rw [Char.eq_iff_toNat, Char.eq_iff_toNat, ht]
    have : ('_' : Char).toNat = 95 := rfl
    omega
  · rw [if_neg h]

/-! ## Python-style string primitives over `List Char` -/

/-- Python `str.strip()`: remove leading and trailing whitespace. -/
def pyStrip (cs : List Char) : List Char :=
  ((cs.dropWhile Char.isWhitespace).reverse.dropWhile Char.isWhitespace).reverse

/-- Python `sub in hay` for strings (substring containment). -/
def containsSub : List Char → List Char → Bool
  | [], sub => sub.isEmpty
  | c :: t, sub => sub.isPrefixOf (c :: t) || containsSub t sub

/-- Python `c in hay` for a single character. -/
def containsChar (cs : List Char) (c : Char) : Bool := cs.contains c

/-- Python `s.lower()` (ASCII model). -/
def lowerL (cs : List Char) : List Char := cs.map Char.toLower

/-- Python `s.replace(' ', '')`: drop all space characters. -/
def dropSpaces (cs : List Char) : List Char := cs.filter (fun c => c ≠ ' ')

/-- Python `s.replace('_', ' ')`. -/
def underscoreToSpace (cs : List Char) : List Char :=
  cs.map (fun c => if c = '_' then ' ' else c)

/-- Python `s.replace('-', ' ')`. -/
def hyphenToSpace (cs : List Char) : List Char :=
  cs.map (fun c => if c = '-' then ' ' else c)

/-- Python `s.replace('//', '')`: remove every (leftmost, non-overlapping)
occurrence of the two-character comment marker. -/
def removeMarkerAll : List Char → List Char
  | [] => []
  | '/' :: '/' :: t => removeMarkerAll t
  | c :: t => c :: removeMarkerAll t

/-- Python `s.split(sub)[0]`: the text before the first occurrence of `sub`
(`sub` is assumed non-empty at call sites, as in the source). -/
def takeUntilSub : List Char → List Char → List Char
  | [], _ => []
  | c :: t, sub => if sub.isPrefixOf (c :: t) then [] else c :: takeUntilSub t sub

/-- Python `s.strip('[]')`: remove leading and trailing `[` / `]` characters. -/
def stripBrackets (cs : List Char) : List Char :=
  let isBr : Char → Bool := fun c => c = '[' || c = ']'
  ((cs.dropWhile isBr).reverse.dropWhile isBr).reverse

/-- Truthiness of an optional Python string (`None` and `''` are falsy). -/
def truthy : Option (List Char) → Bool
  | none => false
  | some s => !s.isEmpty

/-- Python `a or b` for an optional string with a fallback. -/
def orElseL (a : Option (List Char)) (b : List Char) : List Char :=
  match a with
  | some s => if s.isEmpty then b else s
  | none => b

/-! ## The acronym-preserving title-casing (`to_title_case`, source lines 71-81) -/

/-- The `ACRONYMS` set (source lines 21-22); Python-set membership is modelled by
list membership. -/
def ACRONYMS : List String :=
  ["ID", "YTD", "MTD", "QTD", "KPI", "ROI", "YOY", "MOM", "WOW",
   "LOD", "RLS", "API", "URL", "SQL", "AVG", "SUM", "MIN", "MAX"]

/-- Helper for `pySplit`: accumulate the current word (reversed) while
scanning; whitespace flushes the word. -/
def pySplitAux : List Char → List Char → List (List Char)
  | [], acc => if acc.isEmpty then [] else [acc.reverse]
  | c :: t, acc =>
    if c.isWhitespace then
      if acc.isEmpty then pySplitAux t [] else acc.reverse :: pySplitAux t []
    else
      pySplitAux t (c :: acc)

/-- Python `str.split()` with no separator: split on whitespace runs,
discarding empty words. -/
def pySplit (cs : List Char) : List (List Char) := pySplitAux cs []

/-- Python `str.capitalize()` (ASCII model): first character upper-cased,
the rest lower-cased. -/
def capitalizeL : List Char → List Char
  | [] => []
  | c :: t => c.toUpper :: t.map Char.toLower

/-- Python `' '.join(words)`. -/
def joinWords : List (List Char) → List Char
  | [] => []
  | [w] => w
  | w :: ws => w ++ ' ' :: joinWords ws

/-- The per-word step of `to_title_case`: an acronym is upper-cased,
anything else is capitalized. -/
def titleWord (w : List Char) : List Char :=
  let upper := w.map Char.toUpper
  if String.mk upper ∈ ACRONYMS then upper else capitalizeL w

/-- The function `to_title_case` (source lines 71-81) on `List Char`. -/
def titleCaseL (text : List Char) : List Char :=
  joinWords ((pySplit (underscoreToSpace text)).map titleWord)

/-- The function `to_title_case` on `String`. -/
def to_title_case (text : String) : String := String.mk (titleCaseL text.data)

example : to_title_case "total_sales" = "Total Sales" := by rfl
example : to_title_case "customer id" = "Customer ID" := by rfl
example : to_title_case "  ytd   profit " = "YTD Profit" := by rfl

/-! ## Idempotence of `to_title_case` -/

/-- Soundness of the splitter: every produced word is non-empty and made of
non-whitespace characters satisfying any predicate holding on the input. -/
theorem pySplitAux_sound (P : Char → Prop) :
    ∀ (t acc : List Char), (∀ c ∈ t, P c) → (∀ c ∈ acc, c.isWhitespace = false ∧ P c) →
      ∀ w ∈ pySplitAux t acc, w ≠ [] ∧ ∀ c ∈ w, c.isWhitespace = false ∧ P c := by
  intro t
  induction t with
  | nil =>
    intro acc _ hacc w hw
    simp only [pySplitAux] at hw
    by_cases h : acc.isEmpty
    · rw [if_pos h] at hw
      simp at hw
    · rw [if_neg h] at hw
      rw [List.mem_singleton] at hw
      subst hw
      refine ⟨?_, ?_⟩
      · simp only [ne_eq, List.reverse_eq_nil_iff]
        simpa [List.isEmpty_iff] using h
      · intro c hc
        exact hacc c (List.mem_reverse.mp hc)
  | cons c t ih =>
    intro acc ht hacc w hw
    simp only [pySplitAux] at hw
    by_cases hws : c.isWhitespace
    · rw [if_pos hws] at hw
      by_cases h : acc.isEmpty
      · rw [if_pos h] at hw
        exact ih [] (fun d hd => ht d (List.mem_cons_of_mem _ hd)) (by simp) w hw
      · rw [if_neg h] at hw
        rcases List.mem_cons.mp hw with h1 | h1
        · subst h1
          refine ⟨?_, ?_⟩
          · simp only [ne_eq, List.reverse_eq_nil_iff]
            simpa [List.isEmpty_iff] using h
          · intro d hd
            exact (hacc d (List.mem_reverse.mp hd))
        · exact ih [] (fun d hd => ht d (List.mem_cons_of_mem _ hd)) (by simp) w h1
    · rw [if_neg hws] at hw
      refine ih (c :: acc) (fun d hd => ht d (List.mem_cons_of_mem _ hd)) ?_ w hw
      intro d hd
      rcases List.mem_cons.mp hd with h1 | h1
      · subst h1
        exact ⟨by simpa using hws, ht d (List.mem_cons_self _ _)⟩
      · exact hacc d h1

/-- Splitting a whitespace-free string yields the single accumulated word. -/
theorem pySplitAux_no_ws :
    ∀ (cs acc : List Char), (∀ c ∈ cs, c.isWhitespace = false) →
      pySplitAux cs acc =
        if (acc ++ cs).isEmpty then [] else [acc.reverse ++ cs] := by
  intro cs
  induction cs with
  | nil =>
    intro acc _
    simp [pySplitAux]
  | cons c t ih =>
    intro acc h
    have hc : c.isWhitespace = false := h c (List.mem_cons_self _ _)
    simp only [pySplitAux, hc, Bool.false_eq_true, if_false]
    rw [ih (c :: acc) (fun d hd => h d (List.mem_cons_of_mem _ hd))]
    simp

/-- Splitting `w ++ ' ' :: t` flushes `acc.reverse ++ w` (when non-empty)
and continues on `t`. -/
theorem pySplitAux_break :
    ∀ (w t acc : List Char), (∀ c ∈ w, c.isWhitespace = false) →
      pySplitAux (w ++ ' ' :: t) acc =
        if (acc.reverse ++ w).isEmpty then pySplitAux t []
        else (acc.reverse ++ w) :: pySplitAux t [] := by
  intro w
  induction w with
  | nil =>
    intro t acc _
    simp [pySplitAux, List.isEmpty_iff]
  | cons c w' ih =>
    intro t acc h
    have hc : c.isWhitespace = false := h c (List.mem_cons_self _ _)
    simp only [List.cons_append, pySplitAux, hc, Bool.false_eq_true, if_false,
      List.append_eq]
    rw [ih t (c :: acc) (fun d hd => h d (List.mem_cons_of_mem _ hd))]
    simp

/-- Splitting the space-join of non-empty whitespace-free words recovers
exactly those words. -/
theorem pySplit_joinWords :
    ∀ ws : List (List Char),
      (∀ w ∈ ws, w ≠ [] ∧ ∀ c ∈ w, c.isWhitespace = false) →
      pySplit (joinWords ws) = ws := by
  intro ws
  induction ws with
  | nil => intro _; rfl
  | cons w rest ih =>
    intro h
    obtain ⟨hne, hnws⟩ := h w (List.mem_cons_self _ _)
    match rest with
    | [] =>
      show pySplitAux w [] = [w]
      rw [pySplitAux_no_ws w [] hnws]
      simp [List.isEmpty_iff, hne]
    | w' :: rest' =>
      show pySplitAux (w ++ ' ' :: joinWords (w' :: rest')) [] = w :: (w' :: rest')
      rw [pySplitAux_break w _ [] hnws]
      simp only [List.reverse_nil, List.nil_append, List.isEmpty_iff, hne, if_false]
      rw [show pySplitAux (joinWords (w' :: rest')) [] = pySplit (joinWords (w' :: rest')) from rfl]
      rw [ih (fun u hu => h u (List.mem_cons_of_mem _ hu))]

theorem map_toUpper_capitalizeL (w : List Char) :
    (capitalizeL w).map Char.toUpper = w.map Char.toUpper := by
  cases w with
  | nil => rfl
  | cons c t =>
    simp only [capitalizeL, List.map_cons, List.map_map, Char.toUpper_toUpper]
    congr 1
    apply List.map_congr_left
    intro a _
    exact Char.toUpper_toLower a

theorem map_toUpper_titleWord (w : List Char) :
    (titleWord w).map Char.toUpper = w.map Char.toUpper := by
  unfold titleWord
  by_cases h : String.mk (w.map Char.toUpper) ∈ ACRONYMS
  · simp only [h, if_true, List.map_map]
    apply List.map_congr_left
    intro a _
    exact Char.toUpper_toUpper a
  · simp only [h, if_false]
    exact map_toUpper_capitalizeL w

theorem capitalizeL_capitalizeL (w : List Char) :
    capitalizeL (capitalizeL w) = capitalizeL w := by
  cases w with
  | nil => rfl
  | cons c t =>
    simp only [capitalizeL, Char.toUpper_toUpper, List.map_map]
    congr 1
    apply List.map_congr_left
    intro a _
    exact Char.toLower_toLower a

theorem titleWord_of_mem {w : List Char}
    (h : String.mk (w.map Char.toUpper) ∈ ACRONYMS) :
    titleWord w = w.map Char.toUpper := by
  simp only [titleWord]
  rw [if_pos h]

theorem titleWord_of_not_mem {w : List Char}
    (h : ¬ String.mk (w.map Char.toUpper) ∈ ACRONYMS) :
    titleWord w = capitalizeL w := by
  simp only [titleWord]
  rw [if_neg h]

theorem titleWord_idem (w : List Char) : titleWord (titleWord w) = titleWord w := by
  have hmap : (titleWord w).map Char.toUpper = w.map Char.toUpper :=
    map_toUpper_titleWord w
  by_cases h : String.mk (w.map Char.toUpper) ∈ ACRONYMS
  · have h2 : String.mk ((titleWord w).map Char.toUpper) ∈ ACRONYMS := by
      rw [hmap]
      exact h
    rw [titleWord_of_mem h2, hmap, titleWord_of_mem h]
  · have h2 : ¬ String.mk ((titleWord w).map Char.toUpper) ∈ ACRONYMS := by
      rw [hmap]
      exact h
    have h1 : titleWord w = capitalizeL w := titleWord_of_not_mem h
    rw [titleWord_of_not_mem h2, h1, capitalizeL_capitalizeL, ← h1]

theorem titleWord_ne_nil {w : List Char} (h : w ≠ []) : titleWord w ≠ [] := by
  unfold titleWord
  cases w with
  | nil => exact absurd rfl h
  | cons c t =>
    by_cases ha : String.mk ((c :: t).map Char.toUpper) ∈ ACRONYMS
    · rw [if_pos ha]
      simp
    · rw [if_neg ha]
      simp [capitalizeL]

theorem titleWord_chars {w : List Char} :
    ∀ c' ∈ titleWord w, ∃ c ∈ w, c' = c.toUpper ∨ c' = c.toLower := by
  intro c' hc'
  unfold titleWord at hc'
  by_cases ha : String.mk (w.map Char.toUpper) ∈ ACRONYMS
  · rw [if_pos ha] at hc'
    obtain ⟨c, hc, heq⟩ := List.mem_map.mp hc'
    exact ⟨c, hc, Or.inl heq.symm⟩
  · rw [if_neg ha] at hc'
    cases w with
    | nil => simp [capitalizeL] at hc'
    | cons a t =>
      simp only [capitalizeL, List.mem_cons] at hc'
      rcases hc' with h1 | h1
      · exact ⟨a, List.mem_cons_self _ _, Or.inl h1⟩
      · obtain ⟨c, hc, heq⟩ := List.mem_map.mp h1
        exact ⟨c, List.mem_cons_of_mem _ hc, Or.inr heq.symm⟩

/-- Characters of a space-join are spaces or characters of the words. -/
theorem mem_joinWords {c : Char} :
    ∀ ws : List (List Char), c ∈ joinWords ws → c = ' ' ∨ ∃ w ∈ ws, c ∈ w := by
  intro ws
  induction ws with
  | nil => intro h; simp [joinWords] at h
  | cons w rest ih =>
    intro h
    match rest, h with
    | [], h => exact Or.inr ⟨w, List.mem_cons_self _ _, h⟩
    | w' :: rest', h =>
      rcases List.mem_append.mp h with h1 | h1
      · exact Or.inr ⟨w, List.mem_cons_self _ _, h1⟩
      · rcases List.mem_cons.mp h1 with h2 | h2
        · exact Or.inl h2
        · rcases ih h2 with h3 | ⟨u, hu, hcu⟩
          · exact Or.inl h3
          · exact Or.inr ⟨u, List.mem_cons_of_mem _ hu, hcu⟩

theorem underscoreToSpace_id {cs : List Char} (h : ∀ c ∈ cs, c ≠ '_') :
    underscoreToSpace cs = cs := by
  unfold underscoreToSpace
  rw [List.map_congr_left (fun c hc => if_neg (h c hc))]
  exact List.map_id _

theorem underscoreToSpace_no_underscore (text : List Char) :
    ∀ c ∈ underscoreToSpace text, c ≠ '_' := by
  intro c hc
  obtain ⟨a, _, heq⟩ := List.mem_map.mp hc
  subst heq
  by_cases h : a = '_' <;> simp [h]

theorem titleCaseL_idem (text : List Char) :
    titleCaseL (titleCaseL text) = titleCaseL text := by
  have hw0 : ∀ w ∈ pySplit (underscoreToSpace text),
      w ≠ [] ∧ ∀ c ∈ w, c.isWhitespace = false ∧ c ≠ '_' :=
    pySplitAux_sound (· ≠ '_') (underscoreToSpace text) []
      (underscoreToSpace_no_underscore text) (by simp)
  set ws0 := pySplit (underscoreToSpace text) with hws0
  have hw1 : ∀ w' ∈ ws0.map titleWord,
      w' ≠ [] ∧ ∀ c ∈ w', c.isWhitespace = false ∧ c ≠ '_' := by
    intro w' hw'
    obtain ⟨w, hw, heq⟩ := List.mem_map.mp hw'
    subst heq
    obtain ⟨hne, hchars⟩ := hw0 w hw
    refine ⟨titleWord_ne_nil hne, ?_⟩
    intro c' hc'
    obtain ⟨c, hc, hcase⟩ := titleWord_chars c' hc'
    obtain ⟨hcw, hcu⟩ := hchars c hc
    rcases hcase with h | h <;> subst h
    · exact ⟨by rw [Char.ws_toUpper, hcw],
        fun hb => hcu ((Char.toUpper_eq_underscore c).mp hb)⟩
    · exact ⟨by rw [Char.ws_toLower, hcw],
        fun hb => hcu ((Char.toLower_eq_underscore c).mp hb)⟩
  show titleCaseL (joinWords (ws0.map titleWord)) = _
  have hid : underscoreToSpace (joinWords (ws0.map titleWord)) =
      joinWords (ws0.map titleWord) := by
    apply underscoreToSpace_id
    intro c hc
    rcases mem_joinWords _ hc with h | ⟨w, hw, hcw⟩
    · subst h
      decide
    · exact ((hw1 w hw).2 c hcw).2
  unfold titleCaseL
  rw [hid]
  rw [pySplit_joinWords (ws0.map titleWord)
    (fun w hw => ⟨(hw1 w hw).1, fun c hc => ((hw1 w hw).2 c hc).1⟩)]
  rw [List.map_map]
  congr 1
  apply List.map_congr_left
  intro w _
  exact titleWord_idem w

/-- C6: `to_title_case` is idempotent:
`to_title_case (to_title_case x) = to_title_case x` for every string `x`. -/
theorem c6_to_title_case_idempotent (x : String) :
    to_title_case (to_title_case x) = to_title_case x := by
  show String.mk (titleCaseL (titleCaseL x.data)) = String.mk (titleCaseL x.data)
  exact congrArg String.mk (titleCaseL_idem x.data)

/-! ## ValidationResult (source lines 56-68)

Python formats each entry into a `[ERROR]`/`[PASS]` line; we keep the three
components `(rule, subject, message)` of the line instead of the rendered
string. -/

structure Entry where
  rule : String
  subject : String
  msg : String
deriving DecidableEq, Repr

structure ValidationResult where
  errors : List Entry
  passes : List Entry
deriving DecidableEq, Repr

def ValidationResult.empty : ValidationResult := ⟨[], []⟩

/-- Method `result.error(rule, field, message)`. -/
def ValidationResult.err (r : ValidationResult) (rule subject msg : String) :
    ValidationResult :=
  { r with errors := r.errors ++ [⟨rule, subject, msg⟩] }

/-- Method `result.passed(rule, field, message)`. -/
def ValidationResult.pass (r : ValidationResult) (rule subject msg : String) :
    ValidationResult :=
  { r with passes := r.passes ++ [⟨rule, subject, msg⟩] }

/-- Method `result.has_errors()`. -/
def ValidationResult.has_errors (r : ValidationResult) : Bool :=
  !r.errors.isEmpty

/-- Does the entry list contain an entry for the given rule id? -/
def hasRule (es : List Entry) (rule : String) : Bool :=
  es.any (fun e => e.rule = rule)

/-- Append a batch of error entries. -/
def ValidationResult.addErrors (r : ValidationResult) (es : List Entry) :
    ValidationResult :=
  { r with errors := r.errors ++ es }

/-! ## Caption rules C1-C5 (`validate_caption`, source lines 84-115) -/

/-- Python `\w` (ASCII model): letters, digits, underscore. -/
def isWordChar (c : Char) : Bool := c.isAlphanum || c = '_'

/-- Case-insensitive match of `acr` at the head of `cs` with a right word
boundary; returns the matched text. -/
def matchHereCI (acr cs : List Char) : Option (List Char) :=
  if lowerL (cs.take acr.length) = lowerL acr ∧
      (match cs.drop acr.length with
       | [] => true
       | d :: _ => !isWordChar d) = true then
    some (cs.take acr.length)
  else
    none

/-- Leftmost case-insensitive whole-word occurrence of `acr` in the text
(the `re.search(rf'\b{acronym}\b', caption, re.IGNORECASE)` of C4);
`atBoundary` records whether a word boundary precedes the current
position. -/
def findWordCIAux (acr : List Char) : List Char → Bool → Option (List Char)
  | [], _ => none
  | c :: t, atBoundary =>
    match (if atBoundary then matchHereCI acr (c :: t) else none) with
    | some m => some m
    | none => findWordCIAux acr t (!isWordChar c)

def findWordCI (acr cs : List Char) : Option (List Char) :=
  findWordCIAux acr cs true

/-- The C5 pattern `\)\s*\(`: a `)` followed (possibly across whitespace)
by a `(`. -/
def hasParenPair : List Char → Bool
  | [] => false
  | c :: t =>
    (c = ')' &&
      (match t.dropWhile Char.isWhitespace with
       | '(' :: _ => true
       | _ => false)) ||
    hasParenPair t

/-- C1 (source lines 88-95): flag a caption differing from its title-cased
form, but only when the difference survives lower-casing yet disappears
after removing spaces and lower-casing. -/
def c1Entries (c : List Char) (display : String) : List Entry :=
  let expected := titleCaseL c
  if c ≠ expected ∧ lowerL c ≠ lowerL expected then
    if lowerL (dropSpaces c) = lowerL (dropSpaces expected) then
      if c ≠ expected then
        [⟨"C1", display, "should be \"" ++ String.mk expected ++ "\""⟩]
      else []
    else []
  else []

/-- C2 (source lines 97-99): no underscores. -/
def c2Entries (c : List Char) (display : String) : List Entry :=
  if containsChar c '_' then [⟨"C2", display, "contains underscore"⟩] else []

/-- C3 (source lines 101-103): no deprecated `c_` lead. -/
def c3Entries (c : List Char) (display : String) : List Entry :=
  if ['c', '_'].isPrefixOf (lowerL c) then
    [⟨"C3", display, "has deprecated c_ prefix"⟩]
  else []

/-- C4 (source lines 105-111): every acronym-set word must appear fully
upper-cased. -/
def c4Entries (c : List Char) (display : String) : List Entry :=
  (ACRONYMS.map fun acr =>
    match findWordCI acr.data c with
    | some m =>
      if m ≠ acr.data then
        [(⟨"C4", display,
          "\"" ++ String.mk m ++ "\" should be \"" ++ acr ++ "\""⟩ : Entry)]
      else []
    | none => []).flatten

/-- C5 (source lines 113-115): no `)(` pattern. -/
def c5Entries (c : List Char) (display : String) : List Entry :=
  if hasParenPair c then
    [⟨"C5", display, "has double parentheses \"()()\""⟩]
  else []

/-- The function `validate_caption` (source lines 84-115).  Every check is guarded by
`if caption:`; the checks only ever append error entries. -/
def validate_caption (caption : Option (List Char)) (name : List Char)
    (r : ValidationResult) : ValidationResult :=
  let display := String.mk (orElseL caption name)
  let es : List Entry :=
    match caption with
    | none => []
    | some c =>
      if c.isEmpty then []
      else
        c1Entries c display ++ c2Entries c display ++ c3Entries c display ++
          c4Entries c display ++ c5Entries c display
  r.addErrors es

example :
    (validate_caption (some "c_Total_Sales".data) "x".data .empty).errors.map
      Entry.rule = ["C2", "C3"] := by rfl

example :
    (validate_caption (some "Sales id".data) "x".data .empty).errors =
      [⟨"C4", "Sales id", "\"id\" should be \"ID\""⟩] := by rfl

theorem hasRule_append (a b : List Entry) (ru : String) :
    hasRule (a ++ b) ru = (hasRule a ru || hasRule b ru) := by
  simp [hasRule, List.any_append]

theorem hasRule_c2Entries_c1 (c : List Char) (d : String) :
    hasRule (c2Entries c d) "C1" = false := by
  unfold c2Entries hasRule
  split <;> simp

theorem hasRule_c3Entries_c1 (c : List Char) (d : String) :
    hasRule (c3Entries c d) "C1" = false := by
  unfold c3Entries hasRule
  split <;> simp

theorem hasRule_c4Entries_c1 (c : List Char) (d : String) :
    hasRule (c4Entries c d) "C1" = false := by
  unfold c4Entries hasRule
  rw [List.any_eq_false]
  intro e he
  rw [List.mem_flatten] at he
  obtain ⟨l, hl, hel⟩ := he
  rw [List.mem_map] at hl
  obtain ⟨acr, _, heq⟩ := hl
  subst heq
  revert hel
  split
  · split
    · intro hel
      rw [List.mem_singleton] at hel
      subst hel
      simp
    · intro hel
      simp at hel
  · intro hel
    simp at hel

theorem hasRule_c5Entries_c1 (c : List Char) (d : String) :
    hasRule (c5Entries c d) "C1" = false := by
  unfold c5Entries hasRule
  split <;> simp

theorem hasRule_c1Entries (c : List Char) (d : String) :
    hasRule (c1Entries c d) "C1" = true ↔
      (c ≠ titleCaseL c ∧ lowerL c ≠ lowerL (titleCaseL c) ∧
        lowerL (dropSpaces c) = lowerL (dropSpaces (titleCaseL c))) := by
  unfold c1Entries hasRule
  by_cases h1 : c ≠ titleCaseL c ∧ lowerL c ≠ lowerL (titleCaseL c)
  · rw [if_pos h1]
    by_cases h2 : lowerL (dropSpaces c) = lowerL (dropSpaces (titleCaseL c))
    · rw [if_pos h2, if_pos h1.1]
      simp [h1.1, h1.2, h2]
    · rw [if_neg h2]
      simp [h2]
  · rw [if_neg h1]
    simp only [List.any_nil, Bool.false_eq_true, false_iff]
    intro hcon
    exact h1 ⟨hcon.1, hcon.2.1⟩

/-- C2 counterexample: the caption `"Total_Sales"` differs from its
title-cased form `"Total Sales"` in more than letter case (their
lower-casings differ, so the acronym-case exception cannot apply), yet the
code records no C1 error for it. -/
theorem c2_counterexample :
    "Total_Sales".data ≠ titleCaseL "Total_Sales".data ∧
      lowerL "Total_Sales".data ≠ lowerL (titleCaseL "Total_Sales".data) ∧
      hasRule (validate_caption (some "Total_Sales".data) "x".data
        .empty).errors "C1" = false := by
  refine ⟨by decide, by decide, by rfl⟩

/-- C2 (amended): the C1 check records an error exactly when the caption is
non-empty, differs from `titleCase(caption)` even after lower-casing both,
and agrees with `titleCase(caption)` once spaces are removed and case is
ignored.  (In particular every caption differing from its title-cased form
only by letter case — acronym-related or not — is skipped, as is every
caption whose space-stripped lower-cased text differs.) -/
theorem c2_c1_check_characterization (caption : Option (List Char))
    (name : List Char) :
    hasRule (validate_caption caption name .empty).errors "C1" = true ↔
      ∃ c, caption = some c ∧ c ≠ [] ∧ c ≠ titleCaseL c ∧
        lowerL c ≠ lowerL (titleCaseL c) ∧
        lowerL (dropSpaces c) = lowerL (dropSpaces (titleCaseL c)) := by
  unfold validate_caption
  match caption with
  | none =>
    simp [ValidationResult.addErrors, ValidationResult.empty, hasRule]
  | some c =>
    by_cases hc : c.isEmpty
    · simp only [hc, if_true]
      constructor
      · intro h
        simp [hasRule, ValidationResult.addErrors, ValidationResult.empty] at h
      · rintro ⟨c', hc', hne, _⟩
        injection hc' with h
        exact absurd (List.isEmpty_iff.mp hc) (h ▸ hne)
    · simp only [hc, Bool.false_eq_true, if_false]
      show hasRule ([] ++ _) "C1" = true ↔ _
      rw [List.nil_append, hasRule_append, hasRule_append, hasRule_append,
        hasRule_append, hasRule_c2Entries_c1, hasRule_c3Entries_c1,
        hasRule_c4Entries_c1, hasRule_c5Entries_c1]
      simp only [Bool.or_false]
      rw [hasRule_c1Entries]
      constructor
      · intro h
        exact ⟨c, rfl, fun hnil => hc (by simp [hnil]), h.1, h.2.1, h.2.2⟩
      · rintro ⟨c', hc', _, h1, h2, h3⟩
        injection hc' with h
        subst h
        exact ⟨h1, h2, h3⟩

/-! ## Comment rules M1-M6 (`validate_comment`, source lines 118-206) -/

/-- Constant `MIN_COMMENT_LENGTH` (source line 54). -/
def MIN_COMMENT_LENGTH : Nat := 15

def isHexDigitChar (c : Char) : Bool :=
  ('0' ≤ c && c ≤ '9') || ('A' ≤ c && c ≤ 'F') || ('a' ≤ c && c ≤ 'f')

/-- All-whitespace test (the `\s*$` tail of the lazy patterns). -/
def allWs (cs : List Char) : Bool := cs.all Char.isWhitespace

/-- Regex `\s*`: greedily drop whitespace (exact whenever the next pattern token
cannot match a whitespace character, as in all the lazy patterns). -/
def dropWsAll (cs : List Char) : List Char := cs.dropWhile Char.isWhitespace

/-- Regex `\s+` followed by continuation: at least one whitespace character. -/
def dropWsPlus : List Char → Option (List Char)
  | [] => none
  | c :: t =>
    if c.isWhitespace then some (t.dropWhile Char.isWhitespace) else none

/-- Match a literal word at the head, returning the rest. -/
def afterWord (w : String) (cs : List Char) : Option (List Char) :=
  if w.data.isPrefixOf cs then some (cs.drop w.data.length) else none

/-- Match `//` at the head, returning the rest. -/
def afterMarker (cs : List Char) : Option (List Char) := afterWord "//" cs

/-- Lazy pattern 1 (source line 42):
`^//\s*(calculated\s+field|calculation|formula|field)\s*$` on the already
lower-cased line. -/
def lazy1 (l : List Char) : Bool :=
  match afterMarker l with
  | none => false
  | some r0 =>
    let r := dropWsAll r0
    (match afterWord "calculated" r with
     | some r1 =>
       match dropWsPlus r1 with
       | some r2 =>
         (match afterWord "field" r2 with
          | some r3 => allWs r3
          | none => false)
       | none => false
     | none => false) ||
    (match afterWord "calculation" r with
     | some r1 => allWs r1
     | none => false) ||
    (match afterWord "formula" r with
     | some r1 => allWs r1
     | none => false) ||
    (match afterWord "field" r with
     | some r1 => allWs r1
     | none => false)

/-- Lazy pattern 2 (source line 44):
`^//\s*(returns?\s+\d|case\s+statement|date\s+calculation|sum\s+of|if\s+statement)`. -/
def lazy2 (l : List Char) : Bool :=
  let wordThenWsWord : String → String → List Char → Bool := fun w1 w2 r =>
    match afterWord w1 r with
    | some r1 =>
      match dropWsPlus r1 with
      | some r2 => (afterWord w2 r2).isSome
      | none => false
    | none => false
  let returnsDigit : List Char → Bool := fun r1 =>
    match dropWsPlus r1 with
    | some r2 =>
      match r2 with
      | d :: _ => d.isDigit
      | [] => false
    | none => false
  match afterMarker l with
  | none => false
  | some r0 =>
    let r := dropWsAll r0
    (match afterWord "returns" r with
     | some r1 => returnsDigit r1
     | none => false) ||
    (match afterWord "return" r with
     | some r1 => returnsDigit r1
     | none => false) ||
    wordThenWsWord "case" "statement" r ||
    wordThenWsWord "date" "calculation" r ||
    wordThenWsWord "sum" "of" r ||
    wordThenWsWord "if" "statement" r

/-- Lazy pattern 3 (source line 46): `^//\s*\w{1,6}\s*$`. -/
def lazy3 (l : List Char) : Bool :=
  match afterMarker l with
  | none => false
  | some r0 =>
    let r := dropWsAll r0
    let run := r.takeWhile isWordChar
    decide (1 ≤ run.length) && decide (run.length ≤ 6) &&
      allWs (r.drop run.length)

/-- Lazy pattern 4 (source line 48):
`^//\s*(this|the|a|an)\s+(field|calc|calculation|formula|value)\s*`. -/
def lazy4 (l : List Char) : Bool :=
  match afterMarker l with
  | none => false
  | some r0 =>
    let r := dropWsAll r0
    ["this", "the", "a", "an"].any fun w1 =>
      match afterWord w1 r with
      | some r1 =>
        match dropWsPlus r1 with
        | some r2 =>
          ["field", "calc", "calculation", "formula", "value"].any fun w2 =>
            (afterWord w2 r2).isSome
        | none => false
      | none => false

/-- Lazy pattern 5 (source line 50):
`^//\s*(boolean|string|number|integer|float|date)\s*(field|value|calc)?\s*$`. -/
def lazy5 (l : List Char) : Bool :=
  match afterMarker l with
  | none => false
  | some r0 =>
    let r := dropWsAll r0
    ["boolean", "string", "number", "integer", "float", "date"].any fun w1 =>
      match afterWord w1 r with
      | some r1 =>
        (let r2 := dropWsAll r1
         ["field", "value", "calc"].any fun w2 =>
           match afterWord w2 r2 with
           | some r3 => allWs r3
           | none => false) ||
        allWs r1
      | none => false

/-- The `LAZY_COMMENT_PATTERNS` table (source lines 40-51): `re.match(p, line,
re.IGNORECASE)` for any of the five patterns; the source loop records one
M3 error on the first matching pattern, which is one error iff some pattern
matches. -/
def lazyAny (line : List Char) : Bool :=
  let l := lowerL line
  lazy1 l || lazy2 l || lazy3 l || lazy4 l || lazy5 l

/-- Negative-lookahead body of the M5 regex (source line 195): is the text
after a `&` one of the five entity names or a character reference,
terminated by `;`? -/
def isEntityAfterAmp (t : List Char) : Bool :=
  (afterWord "amp;" t).isSome || (afterWord "apos;" t).isSome ||
  (afterWord "quot;" t).isSome || (afterWord "lt;" t).isSome ||
  (afterWord "gt;" t).isSome ||
  (match t with
   | '#' :: 'x' :: r =>
     let ds := r.takeWhile isHexDigitChar
     !ds.isEmpty &&
       (match r.drop ds.length with
        | ';' :: _ => true
        | _ => false)
   | '#' :: r =>
     let ds := r.takeWhile Char.isDigit
     !ds.isEmpty &&
       (match r.drop ds.length with
        | ';' :: _ => true
        | _ => false)
   | _ => false)

/-- The M5 check `re.search(r'&(?!(amp|apos|quot|lt|gt|#\d+|#x[0-9A-Fa-f]+);)', s)`. -/
def hasUnescapedAmp : List Char → Bool
  | [] => false
  | c :: t => (c = '&' && !isEntityAfterAmp t) || hasUnescapedAmp t

/-- The two bin classes skipped by M1 (source line 132). -/
def binClass (cls : Option (List Char)) : Bool :=
  cls = some "categorical-bin".data || cls = some "quantitative-bin".data

/-- The M3 block (source lines 158-180), applied to the stripped formula
`fs` (which starts with `//`): first line of the comment, then the
first-match-wins chain: too short / lazy pattern / restates caption. -/
def m3Entries (fs : List Char) (caption : Option (List Char))
    (display : String) : List Entry :=
  let comment_line :=
    if containsChar fs '\n' then takeUntilSub fs ['\n']
    else takeUntilSub fs "&#13;".data
  let comment_text := pyStrip (removeMarkerAll comment_line)
  if comment_text.length < MIN_COMMENT_LENGTH then
    [⟨"M3", display,
      "comment too short (" ++ toString comment_text.length ++
        " chars, need 15+)"⟩]
  else if lazyAny comment_line then
    [⟨"M3", display,
      "lazy/generic comment - explain PURPOSE, not just \"" ++
        String.mk (comment_text.take 30) ++ "\""⟩]
  else if truthy caption ∧
      pyStrip (hyphenToSpace (underscoreToSpace
        (lowerL (orElseL caption [])))) = pyStrip (lowerL comment_text) then
    [⟨"M3", display, "comment just restates caption - explain PURPOSE instead"⟩]
  else []

/-- The M4 block (source lines 182-188): only the raw formula is consulted;
a literal newline without the carriage-return reference is an error. -/
def m4Entries (raw_formula : Option (List Char)) (display : String) :
    List Entry :=
  if truthy raw_formula then
    let rf := orElseL raw_formula []
    if containsChar rf '\n' ∧ !(containsSub rf "&#13;".data) then
      [⟨"M4", display, "newline not XML-encoded (use &#13;&#10;)"⟩]
    else []
  else []

/-- The M5 block (source lines 190-197): only the raw formula is consulted. -/
def m5Entries (raw_formula : Option (List Char)) (display : String) :
    List Entry :=
  if truthy raw_formula then
    let rf := orElseL raw_formula []
    if hasUnescapedAmp rf then
      [⟨"M5", display, "unescaped & in formula/comment"⟩]
    else []
  else []

/-- The function `validate_comment` (source lines 118-206).  The raw formula, when
available, is used (and is the only text used) by M4 and M5; M6 is a no-op
in the source. -/
def validate_comment (formula caption : Option (List Char)) (name : List Char)
    (raw_formula : Option (List Char)) (calc_class : Option (List Char))
    (r : ValidationResult) : ValidationResult :=
  let display := String.mk (orElseL caption name)
  if binClass calc_class then
    r.pass "M1" display "bin/group calc - no formula to comment"
  else
    match formula with
    | none => r.pass "M1" display "no formula attribute - skipping"
    | some f =>
      let fs := pyStrip f
      if fs.isEmpty then r.pass "M1" display "empty formula - skipping"
      else if !(['/', '/'].isPrefixOf fs) then r.err "M1" display "missing comment"
      else
        let r1 := (r.pass "M1" display "has comment").pass "M2" display "starts with //"
        r1.addErrors (m3Entries fs caption display ++
          m4Entries raw_formula display ++ m5Entries raw_formula display)

example :
    (validate_comment (some "// calculation\nSUM([Sales])".data) none
      "[x]".data none none .empty).errors.map Entry.rule = ["M3"] := by rfl

example :
    (validate_comment (some "SUM([Sales])".data) none "[x]".data
      (some "SUM([Sales])\n1".data) none .empty).errors.map Entry.rule =
      ["M1"] := by rfl

theorem orElseL_some_nil (s : List Char) : orElseL (some s) [] = s := by
  show (if s.isEmpty then ([] : List Char) else s) = s
  split
  · next h => exact (List.isEmpty_iff.mp h).symm
  · rfl

theorem m3Entries_rules (fs : List Char) (cap : Option (List Char))
    (d : String) : ∀ e ∈ m3Entries fs cap d, e.rule = "M3" := by
  intro e he
  simp only [m3Entries] at he
  repeat' split at he
  all_goals first
    | (rw [List.mem_singleton] at he; subst he; rfl)
    | simp at he

theorem hasRule_m3Entries_m4 (fs : List Char) (cap : Option (List Char))
    (d : String) : hasRule (m3Entries fs cap d) "M4" = false := by
  rw [hasRule, List.any_eq_false]
  intro e he
  rw [m3Entries_rules fs cap d e he]
  simp

theorem m5Entries_rules (raw : Option (List Char)) (d : String) :
    ∀ e ∈ m5Entries raw d, e.rule = "M5" := by
  intro e he
  simp only [m5Entries] at he
  repeat' split at he
  all_goals first
    | (rw [List.mem_singleton] at he; subst he; rfl)
    | simp at he

theorem hasRule_m5Entries_m4 (raw : Option (List Char)) (d : String) :
    hasRule (m5Entries raw d) "M4" = false := by
  rw [hasRule, List.any_eq_false]
  intro e he
  rw [m5Entries_rules raw d e he]
  simp

theorem hasRule_m4Entries (raw : Option (List Char)) (d : String) :
    hasRule (m4Entries raw d) "M4" = true ↔
      ∃ rf, raw = some rf ∧ containsChar rf '\n' = true ∧
        containsSub rf "&#13;".data = false := by
  match raw with
  | none =>
    simp [m4Entries, truthy, hasRule]
  | some rf =>
    simp only [m4Entries, orElseL_some_nil]
    by_cases ht : truthy (some rf) = true
    · rw [if_pos ht]
      by_cases hc : containsChar rf '\n' = true ∧
          (!containsSub rf "&#13;".data) = true
      · rw [if_pos hc]
        apply iff_of_true
        · rfl
        · exact ⟨rf, rfl, hc.1, by simpa using hc.2⟩
      · rw [if_neg hc]
        apply iff_of_false
        · simp [hasRule]
        · rintro ⟨rf', heq, ha, hb⟩
          injection heq with heq
          subst heq
          exact hc ⟨ha, by simp [hb]⟩
    · rw [if_neg ht]
      apply iff_of_false
      · simp [hasRule]
      · rintro ⟨rf', heq, ha, _⟩
        injection heq with heq
        subst heq
        have hnil : rf = [] := by
          by_contra hne
          exact ht (by simp [truthy, List.isEmpty_iff, hne])
        subst hnil
        simp [containsChar] at ha

/-- C1: once the M-chain for a field reaches the M4 stage (non-bin class,
formula present, non-blank, starting with `//`), an M4 error is recorded
exactly when the indexed raw formula text contains a literal newline
without the `&#13;` reference; and whenever the field is absent from the
raw-formula index, no M4 error is ever recorded — whatever the parsed
formula contains. -/
theorem c1_m4_raw_text_only (formula caption raw cls : Option (List Char))
    (name f : List Char) :
    (binClass cls = false → formula = some f →
      (pyStrip f).isEmpty = false →
      ['/', '/'].isPrefixOf (pyStrip f) = true →
      (hasRule (validate_comment formula caption name raw cls
          .empty).errors "M4" = true ↔
        ∃ rf, raw = some rf ∧ containsChar rf '\n' = true ∧
          containsSub rf "&#13;".data = false)) ∧
    (raw = none →
      hasRule (validate_comment formula caption name raw cls
        .empty).errors "M4" = false) := by
  constructor
  · intro hb hf hne hcm
    subst hf
    simp only [validate_comment, hb, Bool.false_eq_true, if_false, hne, hcm,
      Bool.not_true, ValidationResult.addErrors, ValidationResult.pass,
      ValidationResult.empty, List.nil_append]
    rw [hasRule_append, hasRule_append, hasRule_m3Entries_m4,
      hasRule_m5Entries_m4]
    simp only [Bool.false_or, Bool.or_false]
    exact hasRule_m4Entries raw _
  · intro hraw
    subst hraw
    simp only [validate_comment]
    split
    · simp [ValidationResult.pass, ValidationResult.empty, hasRule]
    · split
      · simp [ValidationResult.pass, ValidationResult.empty, hasRule]
      · split
        · simp [ValidationResult.pass, ValidationResult.empty, hasRule]
        · split
          · simp [ValidationResult.err, ValidationResult.empty, hasRule]
          · simp only [ValidationResult.addErrors, ValidationResult.pass,
              ValidationResult.empty, List.nil_append]
            rw [hasRule_append, hasRule_append, hasRule_m3Entries_m4,
              hasRule_m5Entries_m4]
            simp only [Bool.false_or, Bool.or_false]
            rw [← Bool.not_eq_true, hasRule_m4Entries]
            rintro ⟨rf, heq, _⟩
            exact Option.noConfusion heq

/-- Witness for C1 at concrete inputs: a commented formula whose raw text
holds a bare newline yields the M4 error; with no raw text indexed, the
same parsed formula yields no M4 error. -/
theorem c1_m4_raw_text_only_witness :
    hasRule (validate_comment (some "// good comment here, long enough\nSUM(1)".data)
      none "[f]".data (some "// good comment here, long enough\nSUM(1)".data)
      none .empty).errors "M4" = true ∧
    hasRule (validate_comment (some "// good comment here, long enough\nSUM(1)".data)
      none "[f]".data none none .empty).errors "M4" = false := by
  constructor
  · exact ((c1_m4_raw_text_only (some "// good comment here, long enough\nSUM(1)".data)
      none (some "// good comment here, long enough\nSUM(1)".data) none
      "[f]".data "// good comment here, long enough\nSUM(1)".data).1
      (by decide) rfl (by decide) (by decide)).mpr
      ⟨"// good comment here, long enough\nSUM(1)".data, rfl, by decide, by decide⟩
  · exact (c1_m4_raw_text_only (some "// good comment here, long enough\nSUM(1)".data)
      none none none "[f]".data "// good comment here, long enough\nSUM(1)".data).2 rfl

/-- C4 counterexample: a field of calculation class `categorical-bin` whose
formula is the non-blank, uncommented text `x` records no M1 failure at all
(the bin gate fires first and records an M1 pass instead), contradicting
the claim that every field with a present, non-blank, uncommented formula
gets exactly one M1 failure. -/
theorem c4_counterexample :
    (pyStrip "x".data).isEmpty = false ∧
      (['/', '/'].isPrefixOf (pyStrip "x".data)) = false ∧
      (validate_comment (some "x".data) none "[f]".data none
        (some "categorical-bin".data) .empty).errors = [] ∧
      (validate_comment (some "x".data) none "[f]".data none
        (some "categorical-bin".data) .empty).passes =
        [⟨"M1", "[f]", "bin/group calc - no formula to comment"⟩] := by
  exact ⟨by decide, by decide, by rfl, by rfl⟩

/-- C4 (amended): for every field whose calculation class is not a
bin/group variant and whose formula is present and non-blank after
trimming but does not start with `//`, exactly one M1 failure is recorded
and nothing else — in particular no M3, M4 or M5 entry, pass or failure. -/
theorem c4_m1_failure_stops_m_checks (formula caption raw cls : Option (List Char))
    (name f : List Char) (hb : binClass cls = false) (hf : formula = some f)
    (hne : (pyStrip f).isEmpty = false)
    (hcm : (['/', '/'].isPrefixOf (pyStrip f)) = false) :
    (validate_comment formula caption name raw cls .empty).errors =
      [⟨"M1", String.mk (orElseL caption name), "missing comment"⟩] ∧
    (validate_comment formula caption name raw cls .empty).passes = [] := by
  subst hf
  simp only [validate_comment, hb, Bool.false_eq_true, if_false, hne, hcm,
    Bool.not_false, if_true, ValidationResult.err, ValidationResult.empty]
  exact ⟨List.nil_append _, trivial⟩

/-- Witness for C4 at a concrete input: formula `x`, no bin class, raw text
(with a bad newline) indexed — still only the single M1 failure. -/
theorem c4_m1_failure_stops_m_checks_witness :
    (validate_comment (some "x".data) none "[f]".data (some "a\nb".data)
      none .empty).errors = [⟨"M1", "[f]", "missing comment"⟩] ∧
    (validate_comment (some "x".data) none "[f]".data (some "a\nb".data)
      none .empty).passes = [] := by
  have h := c4_m1_failure_stops_m_checks (some "x".data) none
    (some "a\nb".data) none "[f]".data "x".data (by decide) rfl
    (by decide) (by decide)
  exact h

/-! ## XML element model

`xml.etree.ElementTree` elements: a tag, an attribute mapping and a list
of child elements.  `find('.//x')` / `findall('.//x')` return descendants
in document (preorder) order; `find('x')` / `findall('x')` look at direct
children only. -/

inductive Element where
  | mk (tag : String) (attrs : List (String × String)) (children : List Element)

mutual

/-- Structural equality of elements (Python compares `Element` objects by
identity; the documents handled here never hold two indistinguishable
copies of the same folder outside/inside the containment element, so
structural equality is an adequate model). -/
def Element.beq : Element → Element → Bool
  | .mk t1 a1 c1, .mk t2 a2 c2 => t1 == t2 && a1 == a2 && beqElems c1 c2

def beqElems : List Element → List Element → Bool
  | [], [] => true
  | x :: xs, y :: ys => Element.beq x y && beqElems xs ys
  | _, _ => false

end

instance : BEq Element := ⟨Element.beq⟩

def Element.tag : Element → String
  | .mk t _ _ => t

def Element.attrs : Element → List (String × String)
  | .mk _ a _ => a

def Element.children : Element → List Element
  | .mk _ _ c => c

/-- Method `elem.get(key)`. -/
def Element.attr (e : Element) (key : String) : Option String :=
  (e.attrs.find? (fun p => p.1 == key)).map Prod.snd

/-- Method `elem.get(key, default)`. -/
def Element.attrD (e : Element) (key dflt : String) : String :=
  (e.attr key).getD dflt

mutual

/-- All proper descendants in document (preorder) order. -/
def Element.descendants : Element → List Element
  | .mk _ _ cs => descendantsList cs

def descendantsList : List Element → List Element
  | [] => []
  | c :: cs => c :: c.descendants ++ descendantsList cs

end

/-- Method `elem.iter()`: the element itself followed by its descendants. -/
def Element.iterAll (e : Element) : List Element := e :: e.descendants

/-- Method `root.find('.//tag')`. -/
def Element.findDesc (e : Element) (t : String) : Option Element :=
  e.descendants.find? (fun d => d.tag == t)

/-- Method `root.findall('.//tag')`. -/
def Element.findallDesc (e : Element) (t : String) : List Element :=
  e.descendants.filter (fun d => d.tag == t)

/-- Method `elem.findall('tag')` (direct children). -/
def Element.findallChild (e : Element) (t : String) : List Element :=
  e.children.filter (fun d => d.tag == t)

/-- Method `elem.find('tag')` (first direct child). -/
def Element.findChild (e : Element) (t : String) : Option Element :=
  e.children.find? (fun d => d.tag == t)

/-- Truthiness of `elem.get(key)`. -/
def truthyS : Option String → Bool
  | none => false
  | some s => !s.isEmpty

/-- Python `caption or name` rendered into an error subject (`None` prints
as `"None"`). -/
def pyDisplay (caption name : Option String) : String :=
  let fallback := match name with
    | some n => n
    | none => "None"
  match caption with
  | some c => if c.isEmpty then fallback else c
  | none => fallback

/-! ## Folder rules F1-F11 (`validate_folders`, source lines 209-334) -/

/-- Constant `MAX_FOLDERS` (source line 36). -/
def MAX_FOLDERS : Nat := 6

/-- The F10/F11 marker pattern `^([\U0001F300-\U0001F9FF]|&#x[0-9A-Fa-f]+;)`
(source line 306): the matched marker text, if the name starts with one. -/
def folderMarker : List Char → Option (List Char)
  | [] => none
  | c :: rest =>
    if 0x1F300 ≤ c.toNat ∧ c.toNat ≤ 0x1F9FF then
      some [c]
    else if c = '&' then
      match rest with
      | '#' :: 'x' :: r2 =>
        let digits := r2.takeWhile isHexDigitChar
        if digits.isEmpty then none
        else
          match r2.drop digits.length with
          | ';' :: _ => some ('&' :: '#' :: 'x' :: (digits ++ [';']))
          | _ => none
      | _ => none
    else none

/-- F3 (source lines 225-239): the containment element must precede the
layout element among the children of their common parent. -/
def f3Check (root fc : Element) (layoutOpt : Option Element)
    (r : ValidationResult) : ValidationResult :=
  match layoutOpt with
  | none => r
  | some l =>
    match root.iterAll.find?
        (fun e => e.children.contains fc && e.children.contains l) with
    | none => r
    | some p =>
      if p.children.indexOf fc > p.children.indexOf l then
        r.err "F3" "XML" "<folders-common> must appear before <layout>"
      else
        r.pass "F3" "XML" "<folders-common> is before <layout>"

/-- F4 (source lines 244-249): every folder element must live inside the
containment element. -/
def f4Check (all_folders fic : List Element) (r : ValidationResult) :
    ValidationResult :=
  let outside := all_folders.filter (fun e => !fic.contains e)
  if !outside.isEmpty then
    r.err "F4" "XML"
      (toString outside.length ++ " <folder> elements outside <folders-common>")
  else
    r.pass "F4" "XML" "all <folder> elements inside <folders-common>"

/-- F5 (source lines 252-254): no role attribute on folders. -/
def f5Check (fic : List Element) (r : ValidationResult) : ValidationResult :=
  fic.foldl
    (fun r folder =>
      if truthyS (folder.attr "role") then
        r.err "F5" (folder.attrD "name" "unnamed") "has invalid role attribute"
      else r)
    r

/-- Source lines 257-262: the set of folder-item names of all folders. -/
def fieldsInFolders (fic : List Element) : List String :=
  fic.flatMap fun folder =>
    (folder.findallChild "folder-item").filterMap fun item =>
      match item.attr "name" with
      | some n => if n.isEmpty then none else some n
      | none => none

/-- F1 (source lines 268-275): every calculation must appear among the
folder items, exactly or bracket-decorated. -/
def f1Check (calculations : List Element) (fif : List String)
    (r : ValidationResult) : ValidationResult :=
  calculations.foldl
    (fun r col =>
      let display := pyDisplay (col.attr "caption") (col.attr "name")
      match col.attr "name" with
      | none => r
      | some n =>
        if n.isEmpty then r
        else if !fif.contains n && !fif.contains ("[" ++ n ++ "]") then
          let bracketed := if !(n.startsWith "[") then "[" ++ n ++ "]" else n
          if !fif.contains bracketed && !fif.contains n then
            r.err "F1" display "not in any folder"
          else r
        else r)
    r

/-- F6 (source lines 278-284): every folder-item must resolve to a real
field name, bracket-stripped or not. -/
def f6Check (fic : List Element) (calc_names : List String)
    (r : ValidationResult) : ValidationResult :=
  fic.foldl
    (fun r folder =>
      (folder.findallChild "folder-item").foldl
        (fun r item =>
          let field_name := item.attrD "name" ""
          let clean := String.mk (stripBrackets field_name.data)
          if !calc_names.contains clean && !calc_names.contains field_name then
            r.err "F6" field_name "not found in workbook"
          else r)
        r)
    r

/-- F7 (source lines 287-291): the layout element must carry
`show-structure='true'`. -/
def f7Check (layoutOpt : Option Element) (r : ValidationResult) :
    ValidationResult :=
  match layoutOpt with
  | none => r
  | some l =>
    if l.attr "show-structure" ≠ some "true" then
      r.err "F7" "XML" "<layout> missing show-structure='true'"
    else
      r.pass "F7" "XML" "<layout> has show-structure='true'"

/-- F8 (source lines 294-297): no raw `&` in folder names unless escaped. -/
def f8Check (fic : List Element) (r : ValidationResult) : ValidationResult :=
  fic.foldl
    (fun r folder =>
      let nm := folder.attrD "name" ""
      if containsChar nm.data '&' && !containsSub nm.data "&amp;".data then
        r.err "F8" nm "has unescaped &"
      else r)
    r

/-- F9 (source lines 300-303): at most `MAX_FOLDERS` folders, one aggregate
entry either way. -/
def f9Check (fic : List Element) (r : ValidationResult) : ValidationResult :=
  if fic.length > MAX_FOLDERS then
    r.err "F9" "XML"
      ("Too many folders (" ++ toString fic.length ++ ") - maximum is " ++
        toString MAX_FOLDERS)
  else
    r.pass "F9" "XML"
      (toString fic.length ++ " folders (max " ++ toString MAX_FOLDERS ++ ")")

/-- F10 (source lines 306-310): every folder name starts with a marker. -/
def f10Check (fic : List Element) (r : ValidationResult) : ValidationResult :=
  fic.foldl
    (fun r folder =>
      let nm := folder.attrD "name" ""
      if (folderMarker nm.data).isNone then
        r.err "F10" nm "missing emoji prefix (use &#x1F4CA; format)"
      else r)
    r

/-- The `seen`-set loop of F11 (source lines 322-334): one error per
repeated occurrence. -/
def dupLoop (msg : String) : List String → List String → ValidationResult →
    ValidationResult
  | [], _, r => r
  | x :: t, seen, r =>
    dupLoop msg t (x :: seen) (if seen.contains x then r.err "F11" x msg else r)

/-- F11 (source lines 312-334): duplicate names, then duplicate markers. -/
def f11Check (fic : List Element) (r : ValidationResult) : ValidationResult :=
  let names := fic.map (fun folder => folder.attrD "name" "")
  let markers := names.filterMap (fun n => (folderMarker n.data).map String.mk)
  dupLoop "duplicate emoji used in multiple folders" markers []
    (dupLoop "duplicate folder name" names [] r)

/-- The function `validate_folders` (source lines 209-334). -/
def validate_folders (root : Element) (calculations : List Element)
    (r : ValidationResult) : ValidationResult :=
  let fcOpt := root.findDesc "folders-common"
  let layoutOpt := root.findDesc "layout"
  let all_folders := root.findallDesc "folder"
  match fcOpt with
  | none => r.err "F2" "XML" "Missing <folders-common> element"
  | some fc =>
    let r := r.pass "F2" "XML" "<folders-common> exists"
    let fic := fc.findallChild "folder"
    let fif := fieldsInFolders fic
    let calc_names := calculations.filterMap (fun c => c.attr "name")
    let r := f3Check root fc layoutOpt r
    let r := f4Check all_folders fic r
    let r := f5Check fic r
    let r := f1Check calculations fif r
    let r := f6Check fic calc_names r
    let r := f7Check layoutOpt r
    let r := f8Check fic r
    let r := f9Check fic r
    let r := f10Check fic r
    f11Check fic r

/-! ## Decomposition of `validate_folders` into independent per-rule blocks -/

def f3Errs (root fc : Element) (layoutOpt : Option Element) : List Entry :=
  match layoutOpt with
  | none => []
  | some l =>
    match root.iterAll.find?
        (fun e => e.children.contains fc && e.children.contains l) with
    | none => []
    | some p =>
      if p.children.indexOf fc > p.children.indexOf l then
        [⟨"F3", "XML", "<folders-common> must appear before <layout>"⟩]
      else []

def f3Passes (root fc : Element) (layoutOpt : Option Element) : List Entry :=
  match layoutOpt with
  | none => []
  | some l =>
    match root.iterAll.find?
        (fun e => e.children.contains fc && e.children.contains l) with
    | none => []
    | some p =>
      if p.children.indexOf fc > p.children.indexOf l then []
      else [⟨"F3", "XML", "<folders-common> is before <layout>"⟩]

def f4Errs (all_folders fic : List Element) : List Entry :=
  let outside := all_folders.filter (fun e => !fic.contains e)
  if !outside.isEmpty then
    [⟨"F4", "XML",
      toString outside.length ++ " <folder> elements outside <folders-common>"⟩]
  else []

def f4Passes (all_folders fic : List Element) : List Entry :=
  let outside := all_folders.filter (fun e => !fic.contains e)
  if !outside.isEmpty then []
  else [⟨"F4", "XML", "all <folder> elements inside <folders-common>"⟩]

def f5Errs (fic : List Element) : List Entry :=
  fic.flatMap fun folder =>
    if truthyS (folder.attr "role") then
      [⟨"F5", folder.attrD "name" "unnamed", "has invalid role attribute"⟩]
    else []

def f1Errs (calculations : List Element) (fif : List String) : List Entry :=
  calculations.flatMap fun col =>
    let display := pyDisplay (col.attr "caption") (col.attr "name")
    match col.attr "name" with
    | none => []
    | some n =>
      if n.isEmpty then []
      else if !fif.contains n && !fif.contains ("[" ++ n ++ "]") then
        let bracketed := if !(n.startsWith "[") then "[" ++ n ++ "]" else n
        if !fif.contains bracketed && !fif.contains n then
          [⟨"F1", display, "not in any folder"⟩]
        else []
      else []

def f6ItemErrs (calc_names : List String) (folder : Element) : List Entry :=
  (folder.findallChild "folder-item").flatMap fun item =>
    let field_name := item.attrD "name" ""
    let clean := String.mk (stripBrackets field_name.data)
    if !calc_names.contains clean && !calc_names.contains field_name then
      [⟨"F6", field_name, "not found in workbook"⟩]
    else []

def f6Errs (fic : List Element) (calc_names : List String) : List Entry :=
  fic.flatMap (f6ItemErrs calc_names)

def f7Errs (layoutOpt : Option Element) : List Entry :=
  match layoutOpt with
  | none => []
  | some l =>
    if l.attr "show-structure" ≠ some "true" then
      [⟨"F7", "XML", "<layout> missing show-structure='true'"⟩]
    else []

def f7Passes (layoutOpt : Option Element) : List Entry :=
  match layoutOpt with
  | none => []
  | some l =>
    if l.attr "show-structure" ≠ some "true" then []
    else [⟨"F7", "XML", "<layout> has show-structure='true'"⟩]

def f8Errs (fic : List Element) : List Entry :=
  fic.flatMap fun folder =>
    let nm := folder.attrD "name" ""
    if containsChar nm.data '&' && !containsSub nm.data "&amp;".data then
      [⟨"F8", nm, "has unescaped &"⟩]
    else []

def f9Errs (fic : List Element) : List Entry :=
  if fic.length > MAX_FOLDERS then
    [⟨"F9", "XML",
      "Too many folders (" ++ toString fic.length ++ ") - maximum is " ++
        toString MAX_FOLDERS⟩]
  else []

def f9Passes (fic : List Element) : List Entry :=
  if fic.length > MAX_FOLDERS then []
  else
    [⟨"F9", "XML",
      toString fic.length ++ " folders (max " ++ toString MAX_FOLDERS ++ ")"⟩]

def f10Errs (fic : List Element) : List Entry :=
  fic.flatMap fun folder =>
    let nm := folder.attrD "name" ""
    if (folderMarker nm.data).isNone then
      [⟨"F10", nm, "missing emoji prefix (use &#x1F4CA; format)"⟩]
    else []

def dupErrs (msg : String) : List String → List String → List Entry
  | [], _ => []
  | x :: t, seen =>
    (if seen.contains x then [⟨"F11", x, msg⟩] else []) ++
      dupErrs msg t (x :: seen)

def folderNames (fic : List Element) : List String :=
  fic.map (fun folder => folder.attrD "name" "")

def folderMarkers (fic : List Element) : List String :=
  (folderNames fic).filterMap (fun n => (folderMarker n.data).map String.mk)

def f11Errs (fic : List Element) : List Entry :=
  dupErrs "duplicate folder name" (folderNames fic) [] ++
    dupErrs "duplicate emoji used in multiple folders" (folderMarkers fic) []

theorem foldl_addErrors {α : Type} (step : ValidationResult → α → ValidationResult)
    (ent : α → List Entry) (h : ∀ r x, step r x = r.addErrors (ent x)) :
    ∀ (xs : List α) (r : ValidationResult),
      xs.foldl step r = r.addErrors (xs.flatMap ent) := by
  intro xs
  induction xs with
  | nil =>
    intro r
    simp [ValidationResult.addErrors]
  | cons x t ih =>
    intro r
    show t.foldl step (step r x) = _
    rw [h, ih]
    simp [ValidationResult.addErrors, List.append_assoc]

theorem f5Check_spec (fic : List Element) (r : ValidationResult) :
    f5Check fic r = r.addErrors (f5Errs fic) := by
  refine foldl_addErrors _ _ ?_ fic r
  intro r folder
  by_cases h : truthyS (folder.attr "role") = true <;>
    simp [h, ValidationResult.err, ValidationResult.addErrors]

theorem f8Check_spec (fic : List Element) (r : ValidationResult) :
    f8Check fic r = r.addErrors (f8Errs fic) := by
  refine foldl_addErrors _ _ ?_ fic r
  intro r folder
  by_cases h : (containsChar (folder.attrD "name" "").data '&' &&
      !containsSub (folder.attrD "name" "").data "&amp;".data) = true <;>
    simp [f8Check, h, ValidationResult.err, ValidationResult.addErrors]

theorem f10Check_spec (fic : List Element) (r : ValidationResult) :
    f10Check fic r = r.addErrors (f10Errs fic) := by
  refine foldl_addErrors _ _ ?_ fic r
  intro r folder
  by_cases h : (folderMarker (folder.attrD "name" "").data).isNone = true <;>
    simp [h, ValidationResult.err, ValidationResult.addErrors]

theorem f1Check_spec (calculations : List Element) (fif : List String)
    (r : ValidationResult) :
    f1Check calculations fif r = r.addErrors (f1Errs calculations fif) := by
  refine foldl_addErrors _ _ ?_ calculations r
  intro r col
  cases hn : col.attr "name" with
  | none => simp [hn, ValidationResult.addErrors]
  | some n =>
    by_cases h1 : n.isEmpty
    · simp [hn, h1, ValidationResult.addErrors]
    · simp only [hn, h1, Bool.false_eq_true, if_false]
      repeat' split
      all_goals simp [ValidationResult.err, ValidationResult.addErrors]

theorem f6Check_spec (fic : List Element) (calc_names : List String)
    (r : ValidationResult) :
    f6Check fic calc_names r = r.addErrors (f6Errs fic calc_names) := by
  refine foldl_addErrors _ _ ?_ fic r
  intro r folder
  refine foldl_addErrors _ _ ?_ (folder.findallChild "folder-item") r
  intro r item
  dsimp only
  split <;> simp [ValidationResult.err, ValidationResult.addErrors]

theorem dupLoop_spec (msg : String) :
    ∀ (xs seen : List String) (r : ValidationResult),
      dupLoop msg xs seen r = r.addErrors (dupErrs msg xs seen) := by
  intro xs
  induction xs with
  | nil =>
    intro seen r
    simp [dupLoop, dupErrs, ValidationResult.addErrors]
  | cons x t ih =>
    intro seen r
    show dupLoop msg t (x :: seen) _ = _
    rw [ih]
    by_cases h : x ∈ seen <;>
      simp [h, dupErrs, ValidationResult.err, ValidationResult.addErrors,
        List.append_assoc]

theorem f11Check_spec (fic : List Element) (r : ValidationResult) :
    f11Check fic r = r.addErrors (f11Errs fic) := by
  unfold f11Check f11Errs
  rw [dupLoop_spec, dupLoop_spec]
  simp [ValidationResult.addErrors, List.append_assoc, folderNames,
    folderMarkers]

theorem f3Check_spec (root fc : Element) (lo : Option Element)
    (r : ValidationResult) :
    f3Check root fc lo r =
      { r with errors := r.errors ++ f3Errs root fc lo,
               passes := r.passes ++ f3Passes root fc lo } := by
  unfold f3Check f3Errs f3Passes
  cases lo with
  | none => simp
  | some l =>
    rcases hfind : root.iterAll.find?
        (fun e => e.children.contains fc && e.children.contains l) with _ | p <;>
      simp only [hfind]
    · simp
    · split <;> simp [ValidationResult.err, ValidationResult.pass]

theorem f4Check_spec (all_folders fic : List Element) (r : ValidationResult) :
    f4Check all_folders fic r =
      { r with errors := r.errors ++ f4Errs all_folders fic,
               passes := r.passes ++ f4Passes all_folders fic } := by
  unfold f4Check f4Errs f4Passes
  dsimp only
  split <;> simp [ValidationResult.err, ValidationResult.pass]

theorem f7Check_spec (lo : Option Element) (r : ValidationResult) :
    f7Check lo r =
      { r with errors := r.errors ++ f7Errs lo,
               passes := r.passes ++ f7Passes lo } := by
  unfold f7Check f7Errs f7Passes
  cases lo with
  | none => simp
  | some l =>
    by_cases h : l.attr "show-structure" = some "true" <;>
      simp [h, ValidationResult.err, ValidationResult.pass]

theorem f9Check_spec (fic : List Element) (r : ValidationResult) :
    f9Check fic r =
      { r with errors := r.errors ++ f9Errs fic,
               passes := r.passes ++ f9Passes fic } := by
  unfold f9Check f9Errs f9Passes
  split <;> simp [ValidationResult.err, ValidationResult.pass]

/-- The F2-failure path of `validate_folders`: the single F2 error and
nothing else. -/
theorem validate_folders_none (root : Element) (calcs : List Element)
    (r : ValidationResult)
    (hfc : root.findDesc "folders-common" = none) :
    validate_folders root calcs r =
      { r with errors :=
          r.errors ++ [⟨"F2", "XML", "Missing <folders-common> element"⟩] } := by
  unfold validate_folders
  rw [hfc]
  rfl

/-- The decomposition of `validate_folders` when the containment element is
present: the errors are the concatenation of the ten independent per-rule
blocks, each a function of the document alone. -/
theorem validate_folders_some (root : Element) (calcs : List Element)
    (r : ValidationResult) (fc : Element)
    (hfc : root.findDesc "folders-common" = some fc) :
    validate_folders root calcs r =
      { r with
        errors := r.errors ++
          (f3Errs root fc (root.findDesc "layout") ++
          f4Errs (root.findallDesc "folder") (fc.findallChild "folder") ++
          f5Errs (fc.findallChild "folder") ++
          f1Errs calcs (fieldsInFolders (fc.findallChild "folder")) ++
          f6Errs (fc.findallChild "folder")
            (calcs.filterMap (fun c => c.attr "name")) ++
          f7Errs (root.findDesc "layout") ++
          f8Errs (fc.findallChild "folder") ++
          f9Errs (fc.findallChild "folder") ++
          f10Errs (fc.findallChild "folder") ++
          f11Errs (fc.findallChild "folder")),
        passes := r.passes ++
          ([⟨"F2", "XML", "<folders-common> exists"⟩] ++
          f3Passes root fc (root.findDesc "layout") ++
          f4Passes (root.findallDesc "folder") (fc.findallChild "folder") ++
          f7Passes (root.findDesc "layout") ++
          f9Passes (fc.findallChild "folder")) } := by
  unfold validate_folders
  rw [hfc]
  dsimp only
  rw [f11Check_spec, f10Check_spec, f9Check_spec, f8Check_spec, f7Check_spec,
    f6Check_spec, f1Check_spec, f5Check_spec, f4Check_spec, f3Check_spec]
  simp [ValidationResult.addErrors, ValidationResult.pass, List.append_assoc]

/-- C5: without a containment element, exactly one F2 failure is recorded
and no other folder-rule entry, pass or failure; with a containment
element, the recorded folder errors are the concatenation of the per-rule
blocks F3, F4, F5, F1, F6, F7, F8, F9, F10, F11, each computed from the
document alone — so a failure of one rule never suppresses another. -/
theorem c5_f2_fatal_else_all_rules_run (root : Element) (calcs : List Element)
    (r : ValidationResult) :
    (root.findDesc "folders-common" = none →
      validate_folders root calcs r =
        { r with errors :=
            r.errors ++ [⟨"F2", "XML", "Missing <folders-common> element"⟩] }) ∧
    (∀ fc, root.findDesc "folders-common" = some fc →
      (validate_folders root calcs r).errors = r.errors ++
        (f3Errs root fc (root.findDesc "layout") ++
        f4Errs (root.findallDesc "folder") (fc.findallChild "folder") ++
        f5Errs (fc.findallChild "folder") ++
        f1Errs calcs (fieldsInFolders (fc.findallChild "folder")) ++
        f6Errs (fc.findallChild "folder")
          (calcs.filterMap (fun c => c.attr "name")) ++
        f7Errs (root.findDesc "layout") ++
        f8Errs (fc.findallChild "folder") ++
        f9Errs (fc.findallChild "folder") ++
        f10Errs (fc.findallChild "folder") ++
        f11Errs (fc.findallChild "folder"))) := by
  constructor
  · intro hfc
    exact validate_folders_none root calcs r hfc
  · intro fc hfc
    rw [validate_folders_some root calcs r fc hfc]

/-- Witness for C5 at concrete documents: a tree without the containment
element yields exactly the F2 error; one with an (empty) containment
element yields no folder errors at all. -/
theorem c5_f2_fatal_else_all_rules_run_witness :
    (validate_folders (Element.mk "workbook" [] []) [] .empty).errors =
      [⟨"F2", "XML", "Missing <folders-common> element"⟩] ∧
    (validate_folders (Element.mk "workbook" []
        [Element.mk "folders-common" [] []]) [] .empty).errors = [] := by
  constructor
  · rw [(c5_f2_fatal_else_all_rules_run (Element.mk "workbook" [] []) []
      .empty).1 (by rfl)]
    rfl
  · rw [(c5_f2_fatal_else_all_rules_run (Element.mk "workbook" []
      [Element.mk "folders-common" [] []]) [] .empty).2
      (Element.mk "folders-common" [] []) (by rfl)]
    rfl

/-! ## C7: F11 duplicate counting -/

theorem mem_ite_singleton {c : Prop} [Decidable c] {e x : Entry}
    (h : e ∈ if c then [x] else []) : e = x := by
  split at h
  · exact List.mem_singleton.mp h
  · simp at h

theorem dupErrs_mem (msg : String) :
    ∀ (xs seen : List String), ∀ e ∈ dupErrs msg xs seen,
      e.rule = "F11" ∧ e.msg = msg := by
  intro xs
  induction xs with
  | nil =>
    intro seen e he
    simp [dupErrs] at he
  | cons x t ih =>
    intro seen e he
    rcases List.mem_append.mp he with h1 | h1
    · rw [mem_ite_singleton h1]
      exact ⟨rfl, rfl⟩
    · exact ih (x :: seen) e h1

theorem dupErrs_count (msg n : String) :
    ∀ (xs seen : List String),
      (dupErrs msg xs seen).count ⟨"F11", n, msg⟩ =
        if n ∈ seen then xs.count n else xs.count n - 1 := by
  intro xs
  induction xs with
  | nil =>
    intro seen
    by_cases h : n ∈ seen <;> simp [dupErrs, h]
  | cons x t ih =>
    intro seen
    have hsplit : dupErrs msg (x :: t) seen =
        (if seen.contains x then [(⟨"F11", x, msg⟩ : Entry)] else []) ++
          dupErrs msg t (x :: seen) := rfl
    rw [hsplit, List.count_append, ih (x :: seen)]
    by_cases hxn : x = n
    · subst hxn
      by_cases hs : x ∈ seen <;>
        simp [hs, List.count_cons, List.mem_cons, beq_iff_eq,
          Entry.mk.injEq] <;>
        omega
    · by_cases hs : x ∈ seen <;>
        simp [hs, hxn, Ne.symm, List.count_cons, List.mem_cons, beq_iff_eq,
          Entry.mk.injEq] <;>
        omega

theorem f3Errs_rule (root fc : Element) (lo : Option Element) :
    ∀ e ∈ f3Errs root fc lo, e.rule = "F3" := by
  intro e he
  simp only [f3Errs] at he
  repeat' split at he
  all_goals first
    | (rw [List.mem_singleton] at he; subst he; rfl)
    | simp at he

theorem f4Errs_rule (af fic : List Element) :
    ∀ e ∈ f4Errs af fic, e.rule = "F4" := by
  intro e he
  simp only [f4Errs] at he
  repeat' split at he
  all_goals first
    | (rw [List.mem_singleton] at he; subst he; rfl)
    | simp at he

theorem f5Errs_rule (fic : List Element) :
    ∀ e ∈ f5Errs fic, e.rule = "F5" := by
  intro e he
  simp only [f5Errs, List.mem_flatMap] at he
  obtain ⟨folder, _, he⟩ := he
  repeat' split at he
  all_goals first
    | (rw [List.mem_singleton] at he; subst he; rfl)
    | simp at he

theorem f1Errs_rule (calcs : List Element) (fif : List String) :
    ∀ e ∈ f1Errs calcs fif, e.rule = "F1" := by
  intro e he
  simp only [f1Errs, List.mem_flatMap] at he
  obtain ⟨col, _, he⟩ := he
  repeat' split at he
  all_goals first
    | (rw [List.mem_singleton] at he; subst he; rfl)
    | simp at he

theorem f6Errs_rule (fic : List Element) (calc_names : List String) :
    ∀ e ∈ f6Errs fic calc_names, e.rule = "F6" := by
  intro e he
  simp only [f6Errs, f6ItemErrs, List.mem_flatMap] at he
  obtain ⟨folder, _, item, _, he⟩ := he
  repeat' split at he
  all_goals first
    | (rw [List.mem_singleton] at he; subst he; rfl)
    | simp at he

theorem f7Errs_rule (lo : Option Element) :
    ∀ e ∈ f7Errs lo, e.rule = "F7" := by
  intro e he
  simp only [f7Errs] at he
  repeat' split at he
  all_goals first
    | (rw [List.mem_singleton] at he; subst he; rfl)
    | simp at he

theorem f8Errs_rule (fic : List Element) :
    ∀ e ∈ f8Errs fic, e.rule = "F8" := by
  intro e he
  simp only [f8Errs, List.mem_flatMap] at he
  obtain ⟨folder, _, he⟩ := he
  repeat' split at he
  all_goals first
    | (rw [List.mem_singleton] at he; subst he; rfl)
    | simp at he

theorem f9Errs_rule (fic : List Element) :
    ∀ e ∈ f9Errs fic, e.rule = "F9" := by
  intro e he
  simp only [f9Errs] at he
  repeat' split at he
  all_goals first
    | (rw [List.mem_singleton] at he; subst he; rfl)
    | simp at he

theorem f10Errs_rule (fic : List Element) :
    ∀ e ∈ f10Errs fic, e.rule = "F10" := by
  intro e he
  simp only [f10Errs, List.mem_flatMap] at he
  obtain ⟨folder, _, he⟩ := he
  repeat' split at he
  all_goals first
    | (rw [List.mem_singleton] at he; subst he; rfl)
    | simp at he

theorem count_zero_of_rules {es : List Entry} {target : Entry} {ru : String}
    (h : ∀ e ∈ es, e.rule = ru) (hne : target.rule ≠ ru) :
    es.count target = 0 := by
  rw [List.count_eq_zero]
  intro hm
  exact hne (h target hm)

theorem count_zero_of_msg {msg : String} {target : Entry}
    (xs seen : List String) (hne : target.msg ≠ msg) :
    (dupErrs msg xs seen).count target = 0 := by
  rw [List.count_eq_zero]
  intro hm
  exact hne ((dupErrs_mem msg xs seen target hm).2)

/-- C7: with the containment element present, the number of F11
duplicate-name failures recorded for a name `n` is one less than the
number of folders carrying `n` (so exactly two identical names give
exactly one failure), and, independently, the number of duplicate-marker
failures for a marker `m` is one less than the number of folders whose
name starts with `m`. -/
theorem c7_f11_duplicate_counts (root : Element) (calcs : List Element)
    (fc : Element) (hfc : root.findDesc "folders-common" = some fc)
    (n m : String) :
    ((validate_folders root calcs .empty).errors.count
        ⟨"F11", n, "duplicate folder name"⟩ =
      (folderNames (fc.findallChild "folder")).count n - 1) ∧
    ((validate_folders root calcs .empty).errors.count
        ⟨"F11", m, "duplicate emoji used in multiple folders"⟩ =
      (folderMarkers (fc.findallChild "folder")).count m - 1) := by
  rw [validate_folders_some root calcs .empty fc hfc]
  have hz : ∀ target : Entry, target.rule = "F11" →
      (f3Errs root fc (root.findDesc "layout") ++
        f4Errs (root.findallDesc "folder") (fc.findallChild "folder") ++
        f5Errs (fc.findallChild "folder") ++
        f1Errs calcs (fieldsInFolders (fc.findallChild "folder")) ++
        f6Errs (fc.findallChild "folder")
          (calcs.filterMap (fun c => c.attr "name")) ++
        f7Errs (root.findDesc "layout") ++
        f8Errs (fc.findallChild "folder") ++
        f9Errs (fc.findallChild "folder") ++
        f10Errs (fc.findallChild "folder")).count target = 0 := by
    intro target ht
    simp only [List.count_append]
    rw [count_zero_of_rules (f3Errs_rule root fc _) (by rw [ht]; decide),
      count_zero_of_rules (f4Errs_rule _ _) (by rw [ht]; decide),
      count_zero_of_rules (f5Errs_rule _) (by rw [ht]; decide),
      count_zero_of_rules (f1Errs_rule _ _) (by rw [ht]; decide),
      count_zero_of_rules (f6Errs_rule _ _) (by rw [ht]; decide),
      count_zero_of_rules (f7Errs_rule _) (by rw [ht]; decide),
      count_zero_of_rules (f8Errs_rule _) (by rw [ht]; decide),
      count_zero_of_rules (f9Errs_rule _) (by rw [ht]; decide),
      count_zero_of_rules (f10Errs_rule _) (by rw [ht]; decide)]
  constructor
  · show (ValidationResult.empty.errors ++ (_ ++ f11Errs _)).count _ = _
    rw [show ValidationResult.empty.errors = [] from rfl, List.nil_append]
    rw [List.count_append, hz _ rfl, Nat.zero_add]
    unfold f11Errs
    rw [List.count_append, dupErrs_count,
      count_zero_of_msg _ _ (by intro h; simp at h)]
    simp
  · show (ValidationResult.empty.errors ++ (_ ++ f11Errs _)).count _ = _
    rw [show ValidationResult.empty.errors = [] from rfl, List.nil_append]
    rw [List.count_append, hz _ rfl, Nat.zero_add]
    unfold f11Errs
    rw [List.count_append, dupErrs_count,
      count_zero_of_msg _ _ (by intro h; simp at h)]
    simp

/-- The two-folder document of the C7 scenario. -/
def c7DemoRoot : Element :=
  Element.mk "workbook" []
    [Element.mk "folders-common" []
      [Element.mk "folder" [("name", "📊 Metrics")] [],
       Element.mk "folder" [("name", "📊 Metrics")] []]]

/-- Witness for C7: two folders both named `📊 Metrics` yield exactly one
duplicate-name failure and exactly one duplicate-marker failure. -/
theorem c7_f11_duplicate_counts_witness :
    (validate_folders c7DemoRoot [] .empty).errors.count
      ⟨"F11", "📊 Metrics", "duplicate folder name"⟩ = 1 ∧
    (validate_folders c7DemoRoot [] .empty).errors.count
      ⟨"F11", "📊", "duplicate emoji used in multiple folders"⟩ = 1 := by
  have h := c7_f11_duplicate_counts c7DemoRoot []
    (Element.mk "folders-common" []
      [Element.mk "folder" [("name", "📊 Metrics")] [],
       Element.mk "folder" [("name", "📊 Metrics")] []])
    (by rfl) "📊 Metrics" "📊"
  exact ⟨h.1.trans (by rfl), h.2.trans (by rfl)⟩

/-! ## C10: entity-marked folder names and F8 -/

/-- Does the name begin with a hexadecimal character reference `&#x…;`,
the entity alternative of the F10 marker pattern? -/
def beginsWithHexRef : List Char → Bool
  | '&' :: '#' :: 'x' :: r =>
    let ds := r.takeWhile isHexDigitChar
    !ds.isEmpty &&
      (match r.drop ds.length with
       | ';' :: _ => true
       | _ => false)
  | _ => false

/-- A name beginning with a hexadecimal reference is accepted by the F10
marker pattern. -/
theorem folderMarker_of_hexRef {cs : List Char}
    (h : beginsWithHexRef cs = true) : (folderMarker cs).isSome = true := by
  unfold beginsWithHexRef at h
  split at h
  · next r =>
    simp only [Bool.and_eq_true, Bool.not_eq_true'] at h
    obtain ⟨hds, hsem⟩ := h
    simp only [folderMarker]
    rw [if_neg (by decide), if_pos trivial]
    rw [if_neg (by simp [hds])]
    revert hsem
    split
    · intro _
      rfl
    · intro hsem
      simp at hsem
  · simp at h

/-- A name beginning with a hexadecimal reference contains `&`. -/
theorem containsChar_amp_of_hexRef {cs : List Char}
    (h : beginsWithHexRef cs = true) : containsChar cs '&' = true := by
  unfold beginsWithHexRef at h
  split at h
  · simp [containsChar]
  · simp at h

/-- C10: a folder whose name begins with a hexadecimal character reference
(the very form the F10 marker pattern accepts) and does not contain the
escaped `&amp;` sequence is recorded as an F8 unescaped-ampersand failure
— F10-compliance via an entity cannot coexist with passing F8. -/
theorem c10_hexref_name_fails_f8 (root : Element) (calcs : List Element)
    (fc folder : Element)
    (hfc : root.findDesc "folders-common" = some fc)
    (hmem : folder ∈ fc.findallChild "folder")
    (hhex : beginsWithHexRef (folder.attrD "name" "").data = true)
    (hamp : containsSub (folder.attrD "name" "").data "&amp;".data = false) :
    (folderMarker (folder.attrD "name" "").data).isSome = true ∧
    (⟨"F8", folder.attrD "name" "", "has unescaped &"⟩ : Entry) ∈
      (validate_folders root calcs .empty).errors := by
  refine ⟨folderMarker_of_hexRef hhex, ?_⟩
  rw [validate_folders_some root calcs .empty fc hfc]
  show _ ∈ ValidationResult.empty.errors ++ _
  rw [show ValidationResult.empty.errors = [] from rfl, List.nil_append]
  have hf8 : (⟨"F8", folder.attrD "name" "", "has unescaped &"⟩ : Entry) ∈
      f8Errs (fc.findallChild "folder") := by
    rw [f8Errs, List.mem_flatMap]
    refine ⟨folder, hmem, ?_⟩
    rw [if_pos (by
      rw [containsChar_amp_of_hexRef hhex, hamp]
      rfl)]
    exact List.mem_singleton.mpr rfl
  simp only [List.append_assoc, List.mem_append]
  exact Or.inr (Or.inr (Or.inr (Or.inr (Or.inr (Or.inr (Or.inl hf8))))))

/-- Witness for C10: a folder named `&#x1F4CA; Metrics` (F10-compliant via
the entity form) is flagged by F8. -/
theorem c10_hexref_name_fails_f8_witness :
    (folderMarker "&#x1F4CA; Metrics".data).isSome = true ∧
    (⟨"F8", "&#x1F4CA; Metrics", "has unescaped &"⟩ : Entry) ∈
      (validate_folders
        (Element.mk "workbook" []
          [Element.mk "folders-common" []
            [Element.mk "folder" [("name", "&#x1F4CA; Metrics")] []]]) []
        .empty).errors := by
  exact c10_hexref_name_fails_f8
    (Element.mk "workbook" []
      [Element.mk "folders-common" []
        [Element.mk "folder" [("name", "&#x1F4CA; Metrics")] []]])
    []
    (Element.mk "folders-common" []
      [Element.mk "folder" [("name", "&#x1F4CA; Metrics")] []])
    (Element.mk "folder" [("name", "&#x1F4CA; Metrics")] [])
    (by rfl)
    (List.mem_singleton.mpr rfl)
    (by decide)
    (by decide)

/-! ## C3: the folder-count scenario -/

def c3Folder (nm : String) (items : List String) : Element :=
  .mk "folder" [("name", nm)]
    (items.map fun i => .mk "folder-item" [("name", i), ("type", "field")] [])

def c3Col (nm : String) : Element :=
  .mk "column" [("name", nm), ("caption", nm), ("datatype", "real")]
    [.mk "calculation" [("class", "tableau"),
      ("formula", "// documents the business purpose&#13;&#10;SUM(1)")] []]

def c3Cols : List Element := [c3Col "CalcA", c3Col "CalcB"]

def c3Folders6 : List Element :=
  [c3Folder "📊 Metrics" ["CalcA"],
   c3Folder "📅 Dates" ["[CalcB]"],
   c3Folder "🔍 Filters" [],
   c3Folder "🎨 Display" [],
   c3Folder "📈 Projections" [],
   c3Folder "🔒 Security" []]

def c3Root (folders : List Element) : Element :=
  .mk "workbook" []
    [.mk "datasource" []
      (c3Cols ++
        [.mk "folders-common" [] folders,
         .mk "layout" [("show-structure", "true")] []])]

def c3Root6 : Element := c3Root c3Folders6
def c3Root7 : Element := c3Root (c3Folders6 ++ [c3Folder "🌍 Extra" []])
def c3Root8 : Element :=
  c3Root (c3Folders6 ++ [c3Folder "🌍 Extra" [], c3Folder "🎯 More" []])

/-- C3 counterexample: a document exactly as the claim describes — eight
folders with distinct markers covering every calculated field, layout
after the containment element with the show-structure flag true — already
fails F9, because the maximum folder count in the code is six, not eight. -/
theorem c3_counterexample :
    ((c3Root8.findDesc "folders-common").map
      (fun fc => (fc.findallChild "folder").length) = some 8) ∧
    (validate_folders c3Root8 c3Cols .empty).errors =
      [⟨"F9", "XML", "Too many folders (8) - maximum is 6"⟩] := by
  exact ⟨by rfl, by rfl⟩

/-- C3 (amended): with six such folders every folder rule passes (no folder
errors at all); adding a seventh makes F9 — and only F9 — fail, with a
single aggregate error; an eighth folder still yields exactly one
aggregate F9 error, not one per folder. -/
theorem c3_six_folders_pass_seventh_flips_f9 :
    (validate_folders c3Root6 c3Cols .empty).errors = [] ∧
    (validate_folders c3Root7 c3Cols .empty).errors =
      [⟨"F9", "XML", "Too many folders (7) - maximum is 6"⟩] ∧
    (validate_folders c3Root8 c3Cols .empty).errors =
      [⟨"F9", "XML", "Too many folders (8) - maximum is 6"⟩] := by
  exact ⟨by rfl, by rfl, by rfl⟩

/-! ## Safety rules S1-S3 (`validate_safety`, source lines 354-368)

`Path(backup_path).exists()` is a file-system query; it enters the model
as the explicit parameter `backupExists`. -/

/-- S2 (source lines 358-362). -/
def s2Check (backup_path : Option (List Char)) (backupExists : Bool)
    (r : ValidationResult) : ValidationResult :=
  if truthy backup_path then
    if backupExists then
      r.pass "S2" "backup" ("exists at " ++ String.mk (orElseL backup_path []))
    else
      r.err "S2" "backup" ("not found at " ++ String.mk (orElseL backup_path []))
  else r

/-- S3 (source lines 365-368). -/
def s3Check (twb_path : List Char) (original_path : Option (List Char))
    (r : ValidationResult) : ValidationResult :=
  if containsSub twb_path "_cleaned".data then
    r.pass "S3" "output" "is _cleaned copy"
  else if truthy original_path ∧ twb_path = orElseL original_path [] then
    r.err "S3" "output" "original file was modified instead of _cleaned copy"
  else r

def validate_safety (twb_path : List Char)
    (backup_path original_path : Option (List Char)) (backupExists : Bool)
    (r : ValidationResult) : ValidationResult :=
  s3Check twb_path original_path (s2Check backup_path backupExists r)

def s2Errs (backup_path : Option (List Char)) (backupExists : Bool) :
    List Entry :=
  if truthy backup_path then
    if backupExists then []
    else [⟨"S2", "backup", "not found at " ++ String.mk (orElseL backup_path [])⟩]
  else []

def s2Passes (backup_path : Option (List Char)) (backupExists : Bool) :
    List Entry :=
  if truthy backup_path then
    if backupExists then
      [⟨"S2", "backup", "exists at " ++ String.mk (orElseL backup_path [])⟩]
    else []
  else []

theorem s2Check_spec (b : Option (List Char)) (bex : Bool)
    (r : ValidationResult) :
    s2Check b bex r =
      { r with errors := r.errors ++ s2Errs b bex,
               passes := r.passes ++ s2Passes b bex } := by
  unfold s2Check s2Errs s2Passes
  by_cases hb : truthy b = true <;> by_cases hx : bex <;>
    simp [hb, hx, ValidationResult.err, ValidationResult.pass]

theorem s2Errs_rule (b : Option (List Char)) (bex : Bool) :
    ∀ e ∈ s2Errs b bex, e.rule = "S2" := by
  intro e he
  simp only [s2Errs] at he
  repeat' split at he
  all_goals first
    | (rw [List.mem_singleton] at he; subst he; rfl)
    | simp at he

theorem s2Passes_rule (b : Option (List Char)) (bex : Bool) :
    ∀ e ∈ s2Passes b bex, e.rule = "S2" := by
  intro e he
  simp only [s2Passes] at he
  repeat' split at he
  all_goals first
    | (rw [List.mem_singleton] at he; subst he; rfl)
    | simp at he

/-- C8 counterexample: a tested path containing the `-cleaned` (hyphen)
marker of the claim, supplied as its own original, records an S3 failure
and no S3 pass — the code's marker is `_cleaned` with an underscore. -/
theorem c8_counterexample :
    containsSub "report-cleaned.twb".data "-cleaned".data = true ∧
    (validate_safety "report-cleaned.twb".data none
      (some "report-cleaned.twb".data) false .empty).errors =
      [⟨"S3", "output",
        "original file was modified instead of _cleaned copy"⟩] ∧
    (validate_safety "report-cleaned.twb".data none
      (some "report-cleaned.twb".data) false .empty).passes = [] := by
  exact ⟨by decide, by rfl, by rfl⟩

/-- C8 (amended): S3 records a pass exactly when the tested path contains
the `_cleaned` marker; when it does not, S3 records a failure exactly when
a non-empty original path equal to the tested path is supplied. -/
theorem c8_s3_cleaned_marker (twb : List Char)
    (backup orig : Option (List Char)) (bex : Bool) :
    ((⟨"S3", "output", "is _cleaned copy"⟩ : Entry) ∈
        (validate_safety twb backup orig bex .empty).passes ↔
      containsSub twb "_cleaned".data = true) ∧
    ((⟨"S3", "output",
        "original file was modified instead of _cleaned copy"⟩ : Entry) ∈
        (validate_safety twb backup orig bex .empty).errors ↔
      (containsSub twb "_cleaned".data = false ∧
        ∃ o, orig = some o ∧ o ≠ [] ∧ twb = o)) := by
  unfold validate_safety s3Check
  rw [s2Check_spec]
  have hnp : (⟨"S3", "output", "is _cleaned copy"⟩ : Entry) ∉
      s2Passes backup bex := by
    intro hmem
    have := s2Passes_rule backup bex _ hmem
    simp at this
  have hne : (⟨"S3", "output",
      "original file was modified instead of _cleaned copy"⟩ : Entry) ∉
      s2Errs backup bex := by
    intro hmem
    have := s2Errs_rule backup bex _ hmem
    simp at this
  by_cases hcl : containsSub twb "_cleaned".data = true
  · rw [if_pos hcl]
    constructor
    · simp [ValidationResult.pass, ValidationResult.empty, hcl]
    · simp only [ValidationResult.pass, ValidationResult.empty, hcl]
      constructor
      · intro hmem
        simp only [List.nil_append] at hmem
        exact absurd hmem hne
      · rintro ⟨hcon, _⟩
        simp [hcl] at hcon
  · rw [if_neg hcl]
    by_cases ho : truthy orig = true ∧ twb = orElseL orig []
    · rw [if_pos ho]
      constructor
      · simp only [ValidationResult.err, ValidationResult.empty,
          List.nil_append]
        constructor
        · intro hmem
          exact absurd hmem hnp
        · intro hcon
          exact absurd hcon hcl
      · simp only [ValidationResult.err, ValidationResult.empty,
          List.nil_append, List.mem_append, List.mem_singleton]
        constructor
        · intro _
          refine ⟨by simpa using hcl, ?_⟩
          obtain ⟨ht, heq⟩ := ho
          match orig, ht with
          | some o, ht =>
            refine ⟨o, rfl, ?_, ?_⟩
            · intro hnil
              rw [hnil] at ht
              simp [truthy] at ht
            · rw [heq, orElseL_some_nil]
        · intro _
          exact Or.inr trivial
    · rw [if_neg ho]
      constructor
      · simp only [ValidationResult.err, ValidationResult.empty,
          List.nil_append]
        constructor
        · intro hmem
          exact absurd hmem hnp
        · intro hcon
          exact absurd hcon hcl
      · simp only [ValidationResult.err, ValidationResult.empty,
          List.nil_append]
        constructor
        · intro hmem
          exact absurd hmem hne
        · rintro ⟨_, o, horig, honil, heq⟩
          subst horig
          refine absurd ?_ ho
          refine ⟨by simp [truthy, List.isEmpty_iff, honil], ?_⟩
          rw [orElseL_some_nil]
          exact heq

/-! ## `validate_workbook` (source lines 371-475) and the process exit code

The XML parse outcome (`validate_xml`, source lines 337-351) enters the
model as `parsed : Option Element` (`none` models an `ET.ParseError` or a
read failure), and the raw-formula index built by the two `re.finditer`
scans over the raw file text (source lines 384-397) enters as
`rawIndex : String → Option (List Char)`. -/

def validate_workbook (parsed : Option Element)
    (rawIndex : String → Option (List Char)) (twb_path : List Char)
    (backup_path original_path : Option (List Char)) (backupExists : Bool) :
    ValidationResult :=
  let r := ValidationResult.empty
  match parsed with
  | none => r.err "X1" "XML" "parse error"
  | some root =>
    let r := r.pass "X1" "XML" "valid XML"
    let calculations :=
      (root.iterAll.filter (fun c => c.tag == "column")).filter
        (fun c => (c.findChild "calculation").isSome)
    let r := calculations.foldl
      (fun r col =>
        validate_caption ((col.attr "caption").map String.data)
          ((col.attr "name").getD "None").data r)
      r
    let r := calculations.foldl
      (fun r col =>
        let calcEl := col.findChild "calculation"
        let calc_class := (calcEl.bind (fun c => c.attr "class")).map String.data
        let formula := (calcEl.bind (fun c => c.attr "formula")).map String.data
        let raw_formula :=
          match col.attr "name" with
          | some n => rawIndex n
          | none => none
        validate_comment formula ((col.attr "caption").map String.data)
          ((col.attr "name").getD "None").data raw_formula calc_class r)
      r
    let r := validate_folders root calculations r
    let r :=
      if truthy backup_path || truthy original_path then
        validate_safety twb_path backup_path original_path backupExists r
      else r
    r

/-- Exit `sys.exit(1 if result.has_errors() else 0)` (source line 503). -/
def exit_code (r : ValidationResult) : Nat := if r.has_errors then 1 else 0

/-- The `--backup` / `--original` option loop (source lines 489-500). -/
def parseOpts : List String → Option String → Option String →
    Option String × Option String
  | [], b, o => (b, o)
  | a :: rest, b, o =>
    if a = "--backup" then
      match rest with
      | v :: rest2 => parseOpts rest2 (some v) o
      | [] => (b, o)
    else if a = "--original" then
      match rest with
      | v :: rest2 => parseOpts rest2 b (some v)
      | [] => (b, o)
    else parseOpts rest b o

/-- The `__main__` block (source lines 478-503): exit 1 on a missing path
argument, otherwise run the validation and exit on `has_errors`. -/
def mainExit (argv : List String) (parsed : Option Element)
    (rawIndex : String → Option (List Char)) (backupExists : Bool) : Nat :=
  match argv with
  | [] => 1
  | [_] => 1
  | _ :: twb :: rest =>
    let (b, o) := parseOpts rest none none
    exit_code (validate_workbook parsed rawIndex twb.data
      (b.map String.data) (o.map String.data) backupExists)

/-- C9: the exit status is 0 exactly when the run recorded zero failures —
with exit 1 for the missing-argument invocation error, and, on a fatal
parse error, a single recorded X1 failure, no other entries, and exit 1. -/
theorem c9_exit_status (argv : List String) (parsed : Option Element)
    (rawIndex : String → Option (List Char)) (backupExists : Bool) :
    (argv.length < 2 → mainExit argv parsed rawIndex backupExists = 1) ∧
    (∀ prog twb rest, argv = prog :: twb :: rest →
      (mainExit argv parsed rawIndex backupExists = 0 ↔
        (validate_workbook parsed rawIndex twb.data
          ((parseOpts rest none none).1.map String.data)
          ((parseOpts rest none none).2.map String.data)
          backupExists).errors = [])) ∧
    (∀ twb_path backup_path original_path,
      (validate_workbook none rawIndex twb_path backup_path original_path
        backupExists).errors = [⟨"X1", "XML", "parse error"⟩] ∧
      (validate_workbook none rawIndex twb_path backup_path original_path
        backupExists).passes = []) := by
  refine ⟨?_, ?_, ?_⟩
  · intro hlen
    match argv, hlen with
    | [], _ => rfl
    | [_], _ => rfl
  · intro prog twb rest h
    subst h
    show exit_code _ = 0 ↔ _
    unfold exit_code ValidationResult.has_errors
    by_cases he : (validate_workbook parsed rawIndex twb.data
        ((parseOpts rest none none).1.map String.data)
        ((parseOpts rest none none).2.map String.data)
        backupExists).errors = []
    · simp [he]
    · simp [he, List.isEmpty_iff]
  · intro twb_path backup_path original_path
    exact ⟨rfl, rfl⟩

/-- Witness for C9: a missing path argument exits 1; a clean document
exits 0; a parse failure records the single X1 error and exits 1. -/
theorem c9_exit_status_witness :
    mainExit ["validate_cleanup.py"] (some c3Root6) (fun _ => none) false = 1 ∧
    mainExit ["validate_cleanup.py", "wb_cleaned.twb"] (some c3Root6)
      (fun _ => none) false = 0 ∧
    (validate_workbook none (fun _ => none) "wb.twb".data none none
      false).errors = [⟨"X1", "XML", "parse error"⟩] := by
  refine ⟨?_, ?_, ?_⟩
  · exact (c9_exit_status ["validate_cleanup.py"] (some c3Root6)
      (fun _ => none) false).1 (by decide)
  · exact ((c9_exit_status ["validate_cleanup.py", "wb_cleaned.twb"]
      (some c3Root6) (fun _ => none) false).2.1 "validate_cleanup.py"
      "wb_cleaned.twb" [] rfl).mpr (by rfl)
  · exact ((c9_exit_status ["x"] none (fun _ => none) false).2.2
      "wb.twb".data none none).1

end TableauCleanup
